import Mathlib

/-!
Verification of the per-step unwind engine of the `unwind` crate.

The development shallowly embeds the Rust sources under `src/`:
memory is a byte function, `u64` values are natural numbers taken
modulo `2 ^ 64` where overflow matters, `i64` values are integers,
and fallible code returns `Except`.  Rust panics (`unreachable!()`,
`unimplemented!()`, out-of-bounds indexing, overflowing shifts) are
modelled by an explicit failure constructor so that "the code panics"
is an observable outcome rather than an unprovable side condition.
-/

set_option maxRecDepth 2000

namespace Unwind

/-- Two to the sixty-fourth, the modulus of `u64` arithmetic. -/
def U64MOD : Nat := 2 ^ 64

/-- Reinterpret a `u64` bit pattern as an `i64` (two's complement). -/
def toI64 (n : Nat) : Int :=
  if n % U64MOD < 2 ^ 63 then ((n % U64MOD : Nat) : Int)
  else ((n % U64MOD : Nat) : Int) - (U64MOD : Int)

/-- Reinterpret an `i64` value as its `u64` bit pattern (two's complement). -/
def toU64 (z : Int) : Nat := (z % (U64MOD : Int)).toNat

/-- Byte-addressed memory.  `utils::load::<T>(loc)` reads `T` at address
`loc`; we model the address space as a total function from addresses to
bytes (each read is reduced modulo 256). -/
def Mem := Nat → Nat

/-- Model of `utils::load::<u8>`. -/
def load8 (m : Mem) (a : Nat) : Nat := m a % 256

/-- Model of `utils::load::<u16>` (little endian). -/
def load16 (m : Mem) (a : Nat) : Nat := load8 m a + load8 m (a + 1) * 2 ^ 8

/-- Model of `utils::load::<u32>` (little endian). -/
def load32 (m : Mem) (a : Nat) : Nat := load16 m a + load16 m (a + 2) * 2 ^ 16

/-- Model of `utils::load::<u64>` (little endian). -/
def load64 (m : Mem) (a : Nat) : Nat := load32 m a + load32 m (a + 4) * 2 ^ 32

/-- The error enumeration of `src/dwarf/mod.rs` (`DwarfError`), restricted to
the variants the embedded functions can produce. -/
inductive DwarfError where
  | InvalidHeaderVersion (v : Nat)
  | CIEZeroLength
  | CIEIdIsNotZero
  | CIEInvalidVersion (v : Nat)
  | FDENotFound
  | FDEZeroLength
  | FDEIsReallyCIE
  | InvalidRegisterNumber (n : Nat)
  | InvalidCfaRegisterNumber (n : Nat)
  | InvalidReturnAddressRegisterNumber (n : Nat)
  | InvalidInstruction (op : Nat)
  | InvalidExpression (op : Nat)
  | InvalidExpressionDerefSize (n : Nat)
  | InvalidPointerEncodingOffset (v : Nat)
  | InvalidPointerEncodingValue (v : Nat)
  | InvalidDataRelBase
  | InvalidRegisterLocation
  | NoRememberState
  | UnreadableAddress (a : Nat)
  | UnimplementedRaSignState
  | MalformedUleb128Expression (a : Nat)
  | TruncatedUleb128Expression (a : Nat)
  | TruncatedSleb128Expression (a : Nat)
  | NoWayToCalculateCfa
  deriving DecidableEq, Repr

/-- Outcome of `decode_uleb128` (`src/dwarf/encoding.rs`): a decoded value
together with the advanced cursor, a `DwarfError`, or fuel exhaustion (the
Rust loop has no intrinsic bound; all theorems supply enough fuel). -/
inductive UlebOut where
  | ok (v : Nat) (loc : Nat)
  | err (e : DwarfError)
  | fuelOut
  deriving DecidableEq, Repr

/-- Loop body of `decode_uleb128` (`src/dwarf/encoding.rs`, lines 91-111).
Arguments mirror the Rust mutable state: cursor `loc`, limit `e`,
accumulator `res` and shift position `bit`. -/
def decode_uleb128_loop (m : Mem) : Nat → Nat → Nat → Nat → Nat → UlebOut
  | 0, _, _, _, _ => .fuelOut
  | fuel + 1, loc, e, res, bit =>
    if loc = e then .err (.TruncatedUleb128Expression loc)
    else
      let b := load8 m loc % 128
      if 64 ≤ bit ∨ b * 2 ^ bit % U64MOD / 2 ^ bit ≠ b then
        .err (.MalformedUleb128Expression loc)
      else
        let res := res ||| b * 2 ^ bit % U64MOD
        let bit := bit + 7
        let brk := load8 m loc < 128
        if brk then .ok res (loc + 1)
        else decode_uleb128_loop m fuel (loc + 1) e res bit

/-- Model of `decode_uleb128` (`src/dwarf/encoding.rs`, lines 91-111). -/
def decode_uleb128 (m : Mem) (fuel loc e : Nat) : UlebOut :=
  decode_uleb128_loop m fuel loc e 0 0

/-- Outcome of `decode_sleb128` (`src/dwarf/encoding.rs`): a decoded value
with the advanced cursor, a `DwarfError`, the overflowing shift the code
performs when `bit >= 64` (which panics under Rust's checked arithmetic),
or fuel exhaustion. -/
inductive SlebOut where
  | ok (v : Int) (loc : Nat)
  | err (e : DwarfError)
  | shiftOverflow (bit : Nat)
  | fuelOut
  deriving DecidableEq, Repr

/-- Loop body of `decode_sleb128` (`src/dwarf/encoding.rs`, lines 114-135).
The accumulator `res` is kept as the `u64` bit pattern of the Rust `i64`;
`(byte & 0b1111111) << bit` is an unguarded `u64` shift, so reaching it
with `bit ≥ 64` is an arithmetic overflow, surfaced as `shiftOverflow`. -/
def decode_sleb128_loop (m : Mem) : Nat → Nat → Nat → Nat → Nat → SlebOut
  | 0, _, _, _, _ => .fuelOut
  | fuel + 1, loc, e, res, bit =>
    if loc = e then .err (.TruncatedSleb128Expression loc)
    else
      let byte := load8 m loc
      if 64 ≤ bit then .shiftOverflow bit
      else
        let res := res ||| byte % 128 * 2 ^ bit % U64MOD
        let bit := bit + 7
        if byte % 256 / 128 = 0 then
          -- sign extend negative numbers
          let res := if byte / 64 % 2 = 1 ∧ bit < 64 then res ||| (U64MOD - 2 ^ bit) else res
          .ok (toI64 res) (loc + 1)
        else decode_sleb128_loop m fuel (loc + 1) e res bit

/-- Model of `decode_sleb128` (`src/dwarf/encoding.rs`, lines 114-135). -/
def decode_sleb128 (m : Mem) (fuel loc e : Nat) : SlebOut :=
  decode_sleb128_loop m fuel loc e 0 0

/-- Modelled from the spec: the standard ULEB128 encoder (7-bit groups, high
bit marks continuation).  The encoder is not part of `src/`; the repository's
tests obtain it from the external `leb128` crate, and §8 property 2 of the
spec states the round trip against it.  `fuel` bounds the recursion; ten
bytes cover every `u64`. -/
def encodeUlebF : Nat → Nat → List Nat
  | 0, _ => []
  | fuel + 1, v => if v < 128 then [v] else (v % 128 + 128) :: encodeUlebF fuel (v / 128)

/-- ULEB128 encoding of a `u64` value (ten bytes of fuel always suffice). -/
def encode_uleb128 (v : Nat) : List Nat := encodeUlebF 10 v

/-- Modelled from the spec: the standard SLEB128 encoder.  `z / 128` is
floor division, i.e. the arithmetic right shift by seven of the two's
complement value.  Not part of `src/` (the tests use the `leb128` crate). -/
def encodeSlebF : Nat → Int → List Nat
  | 0, _ => []
  | fuel + 1, z =>
    let byte := (z % 128).toNat
    let rest := z / 128
    if (rest = 0 ∧ byte < 64) ∨ (rest = -1 ∧ 64 ≤ byte) then [byte]
    else (byte + 128) :: encodeSlebF fuel rest

/-- SLEB128 encoding of an `i64` value (ten bytes of fuel always suffice). -/
def encode_sleb128 (z : Int) : List Nat := encodeSlebF 10 z

/-- A byte list laid out in memory starting at address `a`. -/
def bytesAt (m : Mem) (a : Nat) (L : List Nat) : Prop :=
  ∀ i, i < L.length → m (a + i) = L.getD i 0

theorem lor_two_pow_mul {x : Nat} (n y : Nat) (h : x < 2 ^ n) :
    x ||| 2 ^ n * y = x + 2 ^ n * y := by
  have h2 : ∀ k, (2 ^ n * y).testBit k = if k < n then false else y.testBit (k - n) := by
    intro k
    have := Nat.testBit_mul_pow_two_add y (show 0 < 2 ^ n by positivity) k
    simpa using this
  apply Nat.eq_of_testBit_eq
  intro k
  have h4 := Nat.testBit_mul_pow_two_add y h k
  rw [Nat.mul_comm] at h4 ⊢
  rw [Nat.add_comm] at h4
  rw [Nat.testBit_lor, h4]
  by_cases hk : k < n
  · simp only [hk, if_true]
    rw [Nat.mul_comm, h2 k]
    simp [hk]
  · simp only [hk, if_false]
    rw [Nat.mul_comm, h2 k]
    simp only [hk, if_false]
    have : x.testBit k = false :=
      Nat.testBit_lt_two_pow
        (lt_of_lt_of_le h (Nat.pow_le_pow_right (by norm_num) (le_of_not_lt hk)))
    simp [this]

theorem decode_encode_uleb_aux :
    ∀ fuel v bit res a e, ∀ m : Mem,
      70 ≤ 7 * fuel + bit →
      bit < 64 →
      v * 2 ^ bit < U64MOD →
      res < 2 ^ bit →
      bytesAt m a (encodeUlebF fuel v) →
      a + (encodeUlebF fuel v).length ≤ e →
      decode_uleb128_loop m fuel a e res bit
        = .ok (res + v * 2 ^ bit) (a + (encodeUlebF fuel v).length) := by
  intro fuel
  induction fuel with
  | zero => intro v bit res a e m hfuel hbit; omega
  | succ fuel ih =>
    intro v bit res a e m hfuel hbit hv hres hbytes hend
    have hmod : U64MOD = 2 ^ 64 := rfl
    by_cases hsmall : v < 128
    · have hlen : encodeUlebF (fuel + 1) v = [v] := by simp [encodeUlebF, hsmall]
      rw [hlen] at hbytes hend ⊢
      have hma : m a = v := by simpa using hbytes 0 (by simp)
      have hload : load8 m a = v := by
        simp [load8, hma, Nat.mod_eq_of_lt (show v < 256 by omega)]
      have hane : a ≠ e := by simp at hend; omega
      have hb : load8 m a % 128 = v := by rw [hload]; exact Nat.mod_eq_of_lt hsmall
      have hguardv : v * 2 ^ bit % U64MOD = v * 2 ^ bit := Nat.mod_eq_of_lt hv
      simp only [decode_uleb128_loop, hane, if_false, hb, hguardv]
      have hdiv : v * 2 ^ bit / 2 ^ bit = v := Nat.mul_div_cancel _ (by positivity)
      have hguard : ¬(64 ≤ bit ∨ v * 2 ^ bit / 2 ^ bit ≠ v) := by
        simp [hdiv]; omega
      simp only [hguard, if_false, hload, hsmall, if_true]
      rw [Nat.mul_comm v (2 ^ bit), lor_two_pow_mul bit v hres, Nat.mul_comm]
      simp
    · have hlen : encodeUlebF (fuel + 1) v
          = (v % 128 + 128) :: encodeUlebF fuel (v / 128) := by
        simp [encodeUlebF, hsmall]
      rw [hlen] at hbytes hend ⊢
      have hma : m a = v % 128 + 128 := by simpa using hbytes 0 (by simp)
      have hload : load8 m a = v % 128 + 128 := by
        have : v % 128 + 128 < 256 := by omega
        simp [load8, hma, Nat.mod_eq_of_lt this]
      have hane : a ≠ e := by simp at hend; omega
      have hb : load8 m a % 128 = v % 128 := by
        rw [hload, Nat.add_mod_right]
        omega
      have hble : v % 128 * 2 ^ bit ≤ v * 2 ^ bit :=
        Nat.mul_le_mul_right _ (Nat.mod_le _ _)
      have hguardv : v % 128 * 2 ^ bit % U64MOD = v % 128 * 2 ^ bit :=
        Nat.mod_eq_of_lt (lt_of_le_of_lt hble hv)
      have hdiv : v % 128 * 2 ^ bit / 2 ^ bit = v % 128 :=
        Nat.mul_div_cancel _ (by positivity)
      simp only [decode_uleb128_loop, hane, if_false, hb, hguardv]
      have hguard : ¬(64 ≤ bit ∨ v % 128 * 2 ^ bit / 2 ^ bit ≠ v % 128) := by
        simp [hdiv]; omega
      simp only [hguard, if_false, hload]
      have hnbrk : ¬(v % 128 + 128 < 128) := by omega
      simp only [hnbrk, if_false]
      have hres' : res ||| v % 128 * 2 ^ bit = res + v % 128 * 2 ^ bit := by
        rw [Nat.mul_comm]; exact lor_two_pow_mul bit (v % 128) hres
      rw [hres']
      -- invariants for the recursive call
      have hv1 : 1 ≤ v / 128 := Nat.one_le_div_iff (by norm_num) |>.mpr (by omega)
      have hvmul : v / 128 * 2 ^ (bit + 7) ≤ v * 2 ^ bit := by
        rw [pow_add]
        calc v / 128 * (2 ^ bit * 2 ^ 7) = v / 128 * 2 ^ 7 * 2 ^ bit := by ring
        _ ≤ v * 2 ^ bit := by
            have : v / 128 * 2 ^ 7 ≤ v := by
              have := Nat.div_mul_le_self v 128
              simpa using this
            exact Nat.mul_le_mul_right _ this
      have hv' : v / 128 * 2 ^ (bit + 7) < U64MOD := lt_of_le_of_lt hvmul hv
      have hbit' : bit + 7 < 64 := by
        have h1 : 2 ^ (bit + 7) ≤ v / 128 * 2 ^ (bit + 7) := by
          calc 2 ^ (bit + 7) = 1 * 2 ^ (bit + 7) := by ring
          _ ≤ v / 128 * 2 ^ (bit + 7) := Nat.mul_le_mul_right _ hv1
        have h2 : 2 ^ (bit + 7) < 2 ^ 64 := lt_of_le_of_lt h1 (by rw [← hmod]; exact hv')
        exact (Nat.pow_lt_pow_iff_right (by norm_num)).mp h2
      have hres2 : res + v % 128 * 2 ^ bit < 2 ^ (bit + 7) := by
        have h1 : v % 128 * 2 ^ bit ≤ 127 * 2 ^ bit :=
          Nat.mul_le_mul_right _ (by omega)
        have : res + v % 128 * 2 ^ bit < 2 ^ bit + 127 * 2 ^ bit := by omega
        calc res + v % 128 * 2 ^ bit < 2 ^ bit + 127 * 2 ^ bit := this
        _ = 2 ^ bit * 2 ^ 7 := by ring
        _ = 2 ^ (bit + 7) := by rw [← pow_add]
      have hbytes' : bytesAt m (a + 1) (encodeUlebF fuel (v / 128)) := by
        intro i hi
        have := hbytes (i + 1) (by simp; omega)
        simpa [Nat.add_assoc, Nat.add_comm 1 i] using this
      have hend' : a + 1 + (encodeUlebF fuel (v / 128)).length ≤ e := by
        simp at hend; omega
      have := ih (v / 128) (bit + 7) (res + v % 128 * 2 ^ bit) (a + 1) e m
        (by omega) hbit' hv' hres2 hbytes' hend'
      rw [this]
      congr 1
      · have : v % 128 + v / 128 * 2 ^ 7 = v := by
          have := Nat.mod_add_div v 128
          omega
        rw [pow_add]
        calc res + v % 128 * 2 ^ bit + v / 128 * (2 ^ bit * 2 ^ 7)
            = res + (v % 128 + v / 128 * 2 ^ 7) * 2 ^ bit := by ring
        _ = res + v * 2 ^ bit := by rw [this]
      · simp; omega

theorem mul_pow_mod (x bit : Nat) (h : bit ≤ 64) :
    x * 2 ^ bit % U64MOD = x % 2 ^ (64 - bit) * 2 ^ bit := by
  have : U64MOD = 2 ^ (64 - bit) * 2 ^ bit := by
    show 2 ^ 64 = _
    rw [← pow_add, Nat.sub_add_cancel h]
  rw [this, Nat.mul_mod_mul_right]

theorem toI64_low {n : Nat} (h : n < 2 ^ 63) : toI64 n = (n : Int) := by
  have h64 : n < U64MOD := by show n < 2 ^ 64; omega
  simp only [toI64]
  rw [Nat.mod_eq_of_lt h64, if_pos h]

theorem toI64_high {n : Nat} (h1 : 2 ^ 63 ≤ n) (h2 : n < U64MOD) :
    toI64 n = (n : Int) - 2 ^ 64 := by
  simp only [toI64]
  rw [Nat.mod_eq_of_lt h2, if_neg (by omega)]
  norm_num [U64MOD]

theorem decode_encode_sleb_aux :
    ∀ fuel z bit res a e, ∀ m : Mem,
      70 ≤ 7 * fuel + bit →
      bit ≤ 63 → 7 ∣ bit →
      -((2 : Int) ^ (63 - bit)) ≤ z → z < (2 : Int) ^ (63 - bit) →
      res < 2 ^ bit →
      bytesAt m a (encodeSlebF fuel z) →
      a + (encodeSlebF fuel z).length ≤ e →
      decode_sleb128_loop m fuel a e res bit
        = .ok ((res : Int) + z * 2 ^ bit) (a + (encodeSlebF fuel z).length) := by
  intro fuel
  induction fuel with
  | zero => intro z bit res a e m hfuel hbit; omega
  | succ fuel ih =>
    intro z bit res a e m hfuel hbit hdvd hlo hhi hres hbytes hend
    have hmod0 : (0 : Int) ≤ z % 128 := Int.emod_nonneg z (by norm_num)
    have hmod1 : z % 128 < 128 := Int.emod_lt_of_pos z (by norm_num)
    have hbyteInt : (((z % 128).toNat : Nat) : Int) = z % 128 := Int.toNat_of_nonneg hmod0
    have hbyte : (z % 128).toNat < 128 := by omega
    have hzdec : z = 128 * (z / 128) + z % 128 := (Int.ediv_add_emod z 128).symm
    have hpow63 : 2 ^ (63 - bit) * 2 ^ bit = 2 ^ 63 := by
      rw [← pow_add, Nat.sub_add_cancel hbit]
    have hpowI : ((2 : Int) ^ (63 - bit)) = ((2 ^ (63 - bit) : Nat) : Int) := by push_cast; ring
    by_cases hstop : (z / 128 = 0 ∧ (z % 128).toNat < 64) ∨ (z / 128 = -1 ∧ 64 ≤ (z % 128).toNat)
    · -- final byte
      have hlen : encodeSlebF (fuel + 1) z = [(z % 128).toNat] := by
        simp only [encodeSlebF, if_pos hstop]
      rw [hlen] at hbytes hend ⊢
      have hma : m a = (z % 128).toNat := by simpa using hbytes 0 (by simp)
      have hload : load8 m a = (z % 128).toNat := by
        simp [load8, hma, Nat.mod_eq_of_lt (show (z % 128).toNat < 256 by omega)]
      have hane : a ≠ e := by simp at hend; omega
      have hshift : ¬(64 ≤ bit) := by omega
      have hbmod : (z % 128).toNat % 128 = (z % 128).toNat := Nat.mod_eq_of_lt hbyte
      have hcont : (z % 128).toNat % 256 / 128 = 0 := by
        rw [Nat.mod_eq_of_lt (show (z % 128).toNat < 256 by omega)]
        omega
      simp only [decode_sleb128_loop, hane, if_false, hload, hshift, hbmod, hcont, if_true]
      rcases hstop with ⟨hrest, hsb⟩ | ⟨hrest, hsb⟩
      · -- rest = 0, positive final value, no sign extension
        have hz : z = ((z % 128).toNat : Int) := by rw [hbyteInt]; omega
        have hzn : ((z % 128).toNat : Int) < (2 : Int) ^ (63 - bit) := by rw [← hz]; exact hhi
        have hbn : (z % 128).toNat < 2 ^ (63 - bit) := by
          rw [hpowI] at hzn; exact_mod_cast hzn
        have hlt : (z % 128).toNat * 2 ^ bit < 2 ^ 63 := by
          calc (z % 128).toNat * 2 ^ bit < 2 ^ (63 - bit) * 2 ^ bit :=
                Nat.mul_lt_mul_of_lt_of_le hbn (le_refl _) (by positivity)
          _ = 2 ^ 63 := hpow63
        have hltU : (z % 128).toNat * 2 ^ bit < U64MOD := by
          have : (2 : Nat) ^ 63 < 2 ^ 64 := by norm_num
          show _ < 2 ^ 64
          omega
        have hmodid : (z % 128).toNat * 2 ^ bit % U64MOD = (z % 128).toNat * 2 ^ bit :=
          Nat.mod_eq_of_lt hltU
        rw [hmodid, Nat.mul_comm, lor_two_pow_mul bit _ hres, Nat.mul_comm]
        have hsign : ¬((z % 128).toNat / 64 % 2 = 1 ∧ bit + 7 < 64) := by
          have : (z % 128).toNat / 64 = 0 := Nat.div_eq_of_lt hsb
          simp [this]
        simp only [hsign, if_false]
        have hsum : res + (z % 128).toNat * 2 ^ bit < 2 ^ 63 := by
          have h1 : (z % 128).toNat * 2 ^ bit ≤ (2 ^ (63 - bit) - 1) * 2 ^ bit :=
            Nat.mul_le_mul_right _ (by omega)
          have h2 : (2 ^ (63 - bit) - 1) * 2 ^ bit = 2 ^ 63 - 2 ^ bit := by
            rw [Nat.sub_mul, hpow63, one_mul]
          have h3 : (2 : Nat) ^ bit ≤ 2 ^ 63 := Nat.pow_le_pow_right (by norm_num) hbit
          omega
        rw [toI64_low hsum]
        congr 1
        · obtain ⟨b, hbg⟩ : ∃ b, (z % 128).toNat = b := ⟨_, rfl⟩
          have hzb : z = (b : Int) := by rw [← hbg]; exact hz
          rw [hbg, hzb]
          push_cast
          ring
      · -- rest = -1, negative final value
        by_cases hb7 : bit + 7 < 64
        · -- sign extension executes
          have hb56 : bit ≤ 56 := by omega
          have hltU : (z % 128).toNat * 2 ^ bit < 2 ^ (bit + 7) := by
            rw [pow_add]
            calc (z % 128).toNat * 2 ^ bit < 128 * 2 ^ bit :=
                  Nat.mul_lt_mul_of_lt_of_le hbyte (le_refl _) (by positivity)
            _ = 2 ^ bit * 2 ^ 7 := by ring
          have hbitlt : (2 : Nat) ^ (bit + 7) ≤ 2 ^ 63 := Nat.pow_le_pow_right (by norm_num) (by omega)
          have hmodid : (z % 128).toNat * 2 ^ bit % U64MOD = (z % 128).toNat * 2 ^ bit := by
            apply Nat.mod_eq_of_lt
            show _ < 2 ^ 64
            have : (2 : Nat) ^ 63 < 2 ^ 64 := by norm_num
            omega
          rw [hmodid, Nat.mul_comm, lor_two_pow_mul bit _ hres, Nat.mul_comm]
          have hsign : (z % 128).toNat / 64 % 2 = 1 ∧ bit + 7 < 64 := by
            constructor
            · have : (z % 128).toNat / 64 = 1 := by omega
              simp [this]
            · exact hb7
          simp only [hsign, and_self, if_true, if_pos hsign]
          have hres1 : res + (z % 128).toNat * 2 ^ bit < 2 ^ (bit + 7) := by
            have h3 : (2 : Nat) ^ bit * 2 ^ 7 = 2 ^ (bit + 7) := by rw [← pow_add]
            have h4 : (z % 128).toNat * 2 ^ bit ≤ 127 * 2 ^ bit :=
              Nat.mul_le_mul_right _ (by omega)
            have h5 : (2 : Nat) ^ bit + 127 * 2 ^ bit = 2 ^ bit * 2 ^ 7 := by ring
            omega
          have hdiff : U64MOD - 2 ^ (bit + 7) = 2 ^ (bit + 7) * (2 ^ (57 - bit) - 1) := by
            show 2 ^ 64 - _ = _
            rw [Nat.mul_sub, mul_one, ← pow_add]
            congr 2
            omega
          rw [hdiff, lor_two_pow_mul _ _ hres1, ← hdiff]
          have hge : 2 ^ 63 ≤ res + (z % 128).toNat * 2 ^ bit + (U64MOD - 2 ^ (bit + 7)) := by
            have : (2 : Nat) ^ (bit + 7) ≤ 2 ^ 63 := hbitlt
            show _ ≤ _ + (2 ^ 64 - _)
            have h64 : (2 : Nat) ^ 63 + 2 ^ 63 = 2 ^ 64 := by norm_num
            omega
          have hltW : res + (z % 128).toNat * 2 ^ bit + (U64MOD - 2 ^ (bit + 7)) < U64MOD := by
            show _ < 2 ^ 64
            have hp : (2 : Nat) ^ (bit + 7) ≤ 2 ^ 64 := Nat.pow_le_pow_right (by norm_num) (by omega)
            show _ + (2 ^ 64 - _) < 2 ^ 64
            omega
          rw [toI64_high hge hltW]
          obtain ⟨b, hbg⟩ : ∃ b, (z % 128).toNat = b := ⟨_, rfl⟩
          have hzb : z = (b : Int) - 128 := by
            have h := hbyteInt
            rw [hbg] at h
            omega
          rw [hbg]
          have hp : (2 : Nat) ^ (bit + 7) ≤ 2 ^ 64 := Nat.pow_le_pow_right (by norm_num) (by omega)
          have hcast : ((res + b * 2 ^ bit + (U64MOD - 2 ^ (bit + 7)) : Nat) : Int)
              = (res : Int) + (b : Int) * 2 ^ bit + 2 ^ 64 - 2 ^ (bit + 7) := by
            have h1 : ((U64MOD - 2 ^ (bit + 7) : Nat) : Int) = 2 ^ 64 - 2 ^ (bit + 7) := by
              show (((2 ^ 64 : Nat) - 2 ^ (bit + 7) : Nat) : Int) = _
              rw [Nat.cast_sub hp]
              push_cast
              ring
            push_cast [h1]
            ring
          rw [hcast]
          congr 1
          · have h128 : ((2 : Int) ^ (bit + 7)) = 128 * 2 ^ bit := by
              rw [pow_add]; ring
            rw [hzb, h128]
            ring
        · -- bit = 63: last possible byte, truncated shift, no sign extension
          have hbit63 : bit = 63 := by
            rcases hdvd with ⟨k, rfl⟩
            omega
          subst hbit63
          have hz1 : z = -1 := by
            have h0 : (63 : Nat) - 63 = 0 := by norm_num
            rw [h0] at hlo hhi
            simp at hlo hhi
            omega
          have hb127 : (z % 128).toNat = 127 := by rw [hz1]; rfl
          rw [hb127]
          have hmod127 : 127 * 2 ^ 63 % U64MOD = 2 ^ 63 := by
            rw [mul_pow_mod 127 63 (by norm_num)]
            norm_num
          rw [hmod127]
          have hlor : res ||| 2 ^ 63 = res + 2 ^ 63 := by
            have := lor_two_pow_mul (x := res) 63 1 hres
            simpa using this
          rw [hlor]
          have hsign : ¬(127 / 64 % 2 = 1 ∧ 63 + 7 < 64) := by norm_num
          rw [if_neg hsign]
          have hge : 2 ^ 63 ≤ res + 2 ^ 63 := by omega
          have hltW : res + 2 ^ 63 < U64MOD := by
            show _ < 2 ^ 64
            have h64 : (2 : Nat) ^ 63 + 2 ^ 63 = 2 ^ 64 := by norm_num
            omega
          rw [toI64_high hge hltW, hz1]
          have hval : ((res + 2 ^ 63 : Nat) : Int) - 2 ^ 64 = (res : Int) + (-1) * 2 ^ 63 := by
            push_cast
            omega
          rw [hval]
          norm_num
    · -- continuation byte
      have hlen : encodeSlebF (fuel + 1) z
          = ((z % 128).toNat + 128) :: encodeSlebF fuel (z / 128) := by
        simp only [encodeSlebF, if_neg hstop]
      rw [hlen] at hbytes hend ⊢
      -- a continuation byte cannot occur at bit = 63
      have hb56 : bit ≤ 56 := by
        by_contra hc
        have hbit63 : bit = 63 := by
          rcases hdvd with ⟨k, rfl⟩
          omega
        subst hbit63
        have h0 : (63 : Nat) - 63 = 0 := by norm_num
        rw [h0] at hlo hhi
        simp at hlo hhi
        apply hstop
        interval_cases z
        · right
          constructor
          · decide
          · decide
        · left
          constructor
          · decide
          · decide
      have hma : m a = (z % 128).toNat + 128 := by simpa using hbytes 0 (by simp)
      have hload : load8 m a = (z % 128).toNat + 128 := by
        simp [load8, hma, Nat.mod_eq_of_lt (show (z % 128).toNat + 128 < 256 by omega)]
      have hane : a ≠ e := by simp at hend; omega
      have hshift : ¬(64 ≤ bit) := by omega
      have hbmod : ((z % 128).toNat + 128) % 128 = (z % 128).toNat := by
        rw [Nat.add_mod_right]; omega
      have hcont : ¬(((z % 128).toNat + 128) % 256 / 128 = 0) := by
        rw [Nat.mod_eq_of_lt (show (z % 128).toNat + 128 < 256 by omega)]
        omega
      simp only [decode_sleb128_loop, hane, if_false, hload, hshift, hbmod, hcont, if_true]
      have hltU : (z % 128).toNat * 2 ^ bit < 2 ^ (bit + 7) := by
        rw [pow_add]
        calc (z % 128).toNat * 2 ^ bit < 128 * 2 ^ bit :=
              Nat.mul_lt_mul_of_lt_of_le hbyte (le_refl _) (by positivity)
        _ = 2 ^ bit * 2 ^ 7 := by ring
      have hmodid : (z % 128).toNat * 2 ^ bit % U64MOD = (z % 128).toNat * 2 ^ bit := by
        apply Nat.mod_eq_of_lt
        show _ < 2 ^ 64
        have h1 : (2 : Nat) ^ (bit + 7) ≤ 2 ^ 64 := Nat.pow_le_pow_right (by norm_num) (by omega)
        omega
      rw [hmodid, Nat.mul_comm, lor_two_pow_mul bit _ hres, Nat.mul_comm]
      have hres1 : res + (z % 128).toNat * 2 ^ bit < 2 ^ (bit + 7) := by
        have h3 : (2 : Nat) ^ bit * 2 ^ 7 = 2 ^ (bit + 7) := by rw [← pow_add]
        have h4 : (z % 128).toNat * 2 ^ bit ≤ 127 * 2 ^ bit :=
          Nat.mul_le_mul_right _ (by omega)
        have h5 : (2 : Nat) ^ bit + 127 * 2 ^ bit = 2 ^ bit * 2 ^ 7 := by ring
        omega
      -- invariants for the recursive call
      have hK : 63 - bit = (56 - bit) + 7 := by omega
      have hKpow : (2 : Int) ^ (63 - bit) = 128 * 2 ^ (56 - bit) := by
        rw [hK, pow_add]; ring
      have hlo' : -((2 : Int) ^ (63 - (bit + 7))) ≤ z / 128 := by
        have h1 : -((2 : Int) ^ (63 - bit)) / 128 ≤ z / 128 :=
          Int.ediv_le_ediv (by norm_num) hlo
        have h2 : -((2 : Int) ^ (63 - bit)) / 128 = -((2 : Int) ^ (56 - bit)) := by
          rw [hKpow]
          rw [show -(128 * (2 : Int) ^ (56 - bit)) = 128 * -((2 : Int) ^ (56 - bit)) by ring]
          exact Int.mul_ediv_cancel_left _ (by norm_num)
        have h3 : (63 : Nat) - (bit + 7) = 56 - bit := by omega
        rw [h3]
        omega
      have hhi' : z / 128 < (2 : Int) ^ (63 - (bit + 7)) := by
        have h1 : z / 128 ≤ ((2 : Int) ^ (63 - bit) - 1) / 128 :=
          Int.ediv_le_ediv (by norm_num) (by omega)
        have h2 : ((2 : Int) ^ (63 - bit) - 1) / 128 = (2 : Int) ^ (56 - bit) - 1 := by
          rw [hKpow]
          rw [show (128 * (2 : Int) ^ (56 - bit) - 1)
              = 127 + 128 * ((2 : Int) ^ (56 - bit) - 1) by ring]
          rw [Int.add_mul_ediv_left _ _ (show (128 : Int) ≠ 0 by norm_num)]
          norm_num
        have h3 : (63 : Nat) - (bit + 7) = 56 - bit := by omega
        have h4 : (0 : Int) < 2 ^ (56 - bit) := by positivity
        rw [h3]
        omega
      have hbytes' : bytesAt m (a + 1) (encodeSlebF fuel (z / 128)) := by
        intro i hi
        have := hbytes (i + 1) (by simp; omega)
        simpa [Nat.add_assoc, Nat.add_comm 1 i] using this
      have hend' : a + 1 + (encodeSlebF fuel (z / 128)).length ≤ e := by
        simp at hend; omega
      have := ih (z / 128) (bit + 7) (res + (z % 128).toNat * 2 ^ bit) (a + 1) e m
        (by omega) (by omega) (by omega) hlo' hhi' hres1 hbytes' hend'
      rw [this]
      congr 1
      · obtain ⟨b, hbg⟩ : ∃ b, (z % 128).toNat = b := ⟨_, rfl⟩
        obtain ⟨r, hrg⟩ : ∃ r : Int, z / 128 = r := ⟨_, rfl⟩
        have hzr : z = 128 * r + (b : Int) := by
          rw [← hrg, ← hbg, hbyteInt]
          exact hzdec
        rw [hbg, hrg]
        have h128 : ((2 : Int) ^ (bit + 7)) = 128 * 2 ^ bit := by
          rw [pow_add]; ring
        push_cast
        rw [h128, hzr]
        ring
      · simp; omega

/-- C8: for every `u64` value `v`, decoding the ULEB128 encoding of `v` with
`decode_uleb128` yields `v`, and for every `i64` value, decoding its SLEB128
encoding with `decode_sleb128` yields that value; in both cases the cursor
(`loc`) advances by exactly the encoded byte length on success. -/
theorem C8_leb128_roundtrip :
    (∀ (v : Nat) (m : Mem) (a e : Nat),
        v < 2 ^ 64 →
        bytesAt m a (encode_uleb128 v) →
        a + (encode_uleb128 v).length ≤ e →
        decode_uleb128 m 10 a e = .ok v (a + (encode_uleb128 v).length))
    ∧ (∀ (z : Int) (m : Mem) (a e : Nat),
        -(2 ^ 63) ≤ z → z < 2 ^ 63 →
        bytesAt m a (encode_sleb128 z) →
        a + (encode_sleb128 z).length ≤ e →
        decode_sleb128 m 10 a e = .ok z (a + (encode_sleb128 z).length)) := by
  constructor
  · intro v m a e hv hbytes hend
    have := decode_encode_uleb_aux 10 v 0 0 a e m (by norm_num) (by norm_num)
      (by simpa using hv) (by norm_num) hbytes hend
    simpa [decode_uleb128, encode_uleb128] using this
  · intro z m a e hlo hhi hbytes hend
    have := decode_encode_sleb_aux 10 z 0 0 a e m (by norm_num) (by norm_num)
      (by norm_num) (by simpa using hlo) (by simpa using hhi) (by norm_num) hbytes hend
    simpa [decode_sleb128, encode_sleb128] using this

/-- Concrete three-byte ULEB128 image of 624485 at address 1000. -/
def c8MemU : Mem := fun x =>
  if x = 1000 then 229 else if x = 1001 then 142 else if x = 1002 then 38 else 0

/-- Concrete three-byte SLEB128 image of -123456 at address 2000. -/
def c8MemS : Mem := fun x =>
  if x = 2000 then 192 else if x = 2001 then 187 else if x = 2002 then 120 else 0

/-- Witness for C8 at the classical LEB128 test values. -/
theorem C8_leb128_roundtrip_witness :
    decode_uleb128 c8MemU 10 1000 1003 = .ok 624485 1003
    ∧ decode_sleb128 c8MemS 10 2000 2003 = .ok (-123456) 2003 := by
  obtain ⟨hu, hs⟩ := C8_leb128_roundtrip
  constructor
  · have h := hu 624485 c8MemU 1000 1003 (by norm_num)
      (by unfold bytesAt; decide) (by decide)
    have hl : (encode_uleb128 624485).length = 3 := by decide
    rw [hl] at h
    exact h
  · have h := hs (-123456) c8MemS 2000 2003 (by norm_num) (by norm_num)
      (by unfold bytesAt; decide) (by decide)
    have hl : (encode_sleb128 (-123456)).length = 3 := by decide
    rw [hl] at h
    exact h

/-- The only `DwarfError` the SLEB128 decoder loop can produce is
`TruncatedSleb128Expression`; in particular it never reports
`MalformedUleb128Expression`. -/
theorem sleb_errors_truncated_only (m : Mem) :
    ∀ fuel loc e res bit,
      match decode_sleb128_loop m fuel loc e res bit with
      | .err (.TruncatedSleb128Expression _) => True
      | .err _ => False
      | _ => True := by
  intro fuel
  induction fuel with
  | zero => intro loc e res bit; simp [decode_sleb128_loop]
  | succ fuel ih =>
    intro loc e res bit
    simp only [decode_sleb128_loop]
    by_cases h1 : loc = e
    · simp [h1]
    · simp only [h1, if_false]
      by_cases h2 : 64 ≤ bit
      · simp [h2]
      · simp only [h2, if_false]
        by_cases h3 : load8 m loc % 256 / 128 = 0
        · simp [h3]
        · simp only [h3, if_false]
          exact ih (loc + 1) e _ _

/-- Ten continuation bytes (0x80) starting at address 500. -/
def c10Mem : Mem := fun x => if 500 ≤ x ∧ x < 510 then 128 else 0

/-- Recognizer for the truncation error of the SLEB128 decoder. -/
def DwarfError.isTruncatedSleb : DwarfError → Bool
  | .TruncatedSleb128Expression _ => true
  | _ => false

/-- C10: `decode_sleb128` checks only for truncation — every outcome is
success, `TruncatedSleb128Expression`, or the unguarded shift performed with
`bit ≥ 64` — and, unlike `decode_uleb128`, a continuation sequence encoding
more than 64 bits of payload is not rejected with
`MalformedUleb128Expression`: on ten continuation bytes the SLEB decoder
reaches the shift with `bit = 70` while the ULEB decoder reports
`MalformedUleb128Expression` at the same position. -/
theorem C10_sleb128_unguarded :
    (∀ (m : Mem) (fuel loc e res bit x : Nat),
        decode_sleb128_loop m fuel loc e res bit
          ≠ .err (.MalformedUleb128Expression x))
    ∧ (∀ (m : Mem) (fuel loc e res bit : Nat) (d : DwarfError),
        decode_sleb128_loop m fuel loc e res bit = .err d →
        d.isTruncatedSleb = true)
    ∧ decode_sleb128 c10Mem 12 500 520 = .shiftOverflow 70
    ∧ decode_uleb128 c10Mem 12 500 520 = .err (.MalformedUleb128Expression 510) := by
  refine ⟨?_, ?_, by decide, by decide⟩
  · intro m fuel loc e res bit x hcontra
    have h := sleb_errors_truncated_only m fuel loc e res bit
    rw [hcontra] at h
    exact h
  · intro m fuel loc e res bit d hd
    have h := sleb_errors_truncated_only m fuel loc e res bit
    rw [hd] at h
    cases d <;> simp_all [DwarfError.isTruncatedSleb]

/-- Modelled from the spec: `src/registers/consts.rs` is not under `src/`.
Per §3 the bank is indexed by DWARF register number; the x86_64 numbering is
rax=0, rdx=1, rcx=2, rbx=3, rsi=4, rdi=5, rbp=6, rsp=7, r8..r15=8..15,
rip=16. -/
def UNW_REG_SP : Nat := 7

/-- DWARF number of the instruction pointer on x86_64. -/
def UNW_REG_IP : Nat := 16

/-- Largest valid x86_64 DWARF register number. -/
def UNW_X86_64_MAX_REG_NUM : Nat := 16

/-- The x86_64 register bank of `src/registers/x64.rs`: seventeen `u64`
slots.  The Rust `Index` impl maps DWARF number `n` to the `n`-th field
(identically), so the bank is a function from `Fin 17`. -/
def Registers := Fin 17 → Nat

/-- Read slot `n`.  The Rust `Index` impl is only ever used at valid
numbers (guarded by `valid_register` or the opcode decoders); reads the
code cannot perform are mapped to 0 and never relied upon. -/
def Registers.get (r : Registers) (n : Nat) : Nat :=
  if h : n < 17 then r ⟨n, h⟩ else 0

/-- Write slot `n` (no-op outside the bank, mirroring that the code never
writes an invalid number). -/
def Registers.set (r : Registers) (n : Nat) (v : Nat) : Registers :=
  fun i => if (i : Nat) = n then v else r i

/-- Model of `Registers::valid_register` (`src/registers/x64.rs`). -/
def Registers.valid_register (n : Nat) : Bool :=
  if n = UNW_REG_IP ∨ n = UNW_REG_SP then true
  else if UNW_X86_64_MAX_REG_NUM < n then false
  else true

/-- Model of `Registers::valid_float_register` (always false on x86_64). -/
def Registers.valid_float_register (_ : Nat) : Bool := false

/-- Model of `Registers::valid_vector_register` (always false on x86_64). -/
def Registers.valid_vector_register (_ : Nat) : Bool := false

/-- Model of `Registers::max_register_num` on x86_64. -/
def Registers.max_register_num : Nat := UNW_X86_64_MAX_REG_NUM

/-- Model of `Registers::pc`. -/
def Registers.pc (r : Registers) : Nat := r.get UNW_REG_IP

/-- Model of `Registers::sp`. -/
def Registers.sp (r : Registers) : Nat := r.get UNW_REG_SP

theorem Registers.get_set_ne (r : Registers) (n v j : Nat) (h : j ≠ n) :
    (r.set n v).get j = r.get j := by
  unfold Registers.get Registers.set
  split
  · simp [h]
  · rfl

theorem Registers.get_set_eq (r : Registers) (n v : Nat) (h : n < 17) :
    (r.set n v).get n = v := by
  unfold Registers.get Registers.set
  simp [h]

/-- Rust panics of the embedded code, by site. -/
inductive Crash where
  | unimplementedOpcode (op : Nat)
  | invalidDerefSize (n : Nat)
  | stackIndexOOB
  | invalidRegisterIndex (n : Nat)
  | unreachableLocation
  | unreachableCfa
  | divByZero
  | shiftOverflow (bit : Nat)
  | unreachableEntrySize
  deriving DecidableEq, Repr

/-- Failure of an embedded computation: a `DwarfError`, a Rust panic, or
fuel exhaustion. -/
inductive EFail where
  | dw (e : DwarfError)
  | crash (c : Crash)
  | fuelOut
  deriving DecidableEq, Repr

/-- Signed 8-bit load (`load::<i8>`). -/
def loadI8 (m : Mem) (a : Nat) : Int :=
  let n := load8 m a
  if n < 2 ^ 7 then (n : Int) else (n : Int) - 2 ^ 8

/-- Signed 16-bit load (`load::<i16>`). -/
def loadI16 (m : Mem) (a : Nat) : Int :=
  let n := load16 m a
  if n < 2 ^ 15 then (n : Int) else (n : Int) - 2 ^ 16

/-- Signed 32-bit load (`load::<i32>`). -/
def loadI32 (m : Mem) (a : Nat) : Int :=
  let n := load32 m a
  if n < 2 ^ 31 then (n : Int) else (n : Int) - 2 ^ 32

/-- Signed 64-bit load (`load::<i64>`). -/
def loadI64 (m : Mem) (a : Nat) : Int := toI64 (load64 m a)

/-- Wrapping `u64` addition (release-mode `+`). -/
def wadd (a b : Nat) : Nat := (a + b) % U64MOD

/-- Wrapping `u64` subtraction (release-mode `-`). -/
def wsub (a b : Nat) : Nat := (a % U64MOD + U64MOD - b % U64MOD) % U64MOD

/-- The fixed 100-slot evaluation stack of `src/dwarf/expression.rs`
(`EvaluateStack`).  `push`/`pop`/`top`/`top_mut` index `stack[len]`,
`stack[len - 1 - n]` without any bound check; an index outside the array
(a 101st push, or `len - 1` with `len == 0`) is an out-of-bounds panic,
surfaced as `Crash.stackIndexOOB`. -/
structure EvaluateStack where
  len : Nat
  stack : Nat → Nat

/-- Model of `EvaluateStack::default`. -/
def EvaluateStack.default : EvaluateStack := ⟨0, fun _ => 0⟩

/-- Model of `EvaluateStack::push`. -/
def EvaluateStack.push (s : EvaluateStack) (v : Nat) : Except EFail EvaluateStack :=
  if s.len < 100 then
    .ok ⟨s.len + 1, fun i => if i = s.len then v else s.stack i⟩
  else .error (.crash .stackIndexOOB)

/-- Model of `EvaluateStack::pop`. -/
def EvaluateStack.pop (s : EvaluateStack) : Except EFail (Nat × EvaluateStack) :=
  if s.len = 0 then .error (.crash .stackIndexOOB)
  else .ok (s.stack (s.len - 1), ⟨s.len - 1, s.stack⟩)

/-- Model of `EvaluateStack::top`. -/
def EvaluateStack.top (s : EvaluateStack) (n : Nat) : Except EFail Nat :=
  if s.len < n + 1 then .error (.crash .stackIndexOOB)
  else .ok (s.stack (s.len - 1 - n))

/-- Model of writing through `EvaluateStack::top_mut`. -/
def EvaluateStack.setTop (s : EvaluateStack) (n : Nat) (v : Nat) : Except EFail EvaluateStack :=
  if s.len < n + 1 then .error (.crash .stackIndexOOB)
  else .ok ⟨s.len, fun i => if i = s.len - 1 - n then v else s.stack i⟩

/-- Model of `registers[reg as usize]` inside the expression VM: the
`Index` impl hits `unreachable!()` for numbers outside the bank. -/
def regRead (regs : Registers) (n : Nat) : Except EFail Nat :=
  if n ≤ UNW_X86_64_MAX_REG_NUM then .ok (regs.get n)
  else .error (.crash (.invalidRegisterIndex n))

/-- `decode_uleb128` as called from the expression VM (the VM predates the
fallible decoders; decode failures are surfaced as `EFail.dw`). -/
def ulebE (m : Mem) (loc e : Nat) : Except EFail (Nat × Nat) :=
  match decode_uleb128 m 12 loc e with
  | .ok v loc' => .ok (v, loc')
  | .err d => .error (.dw d)
  | .fuelOut => .error .fuelOut

/-- `decode_sleb128` as called from the expression VM. -/
def slebE (m : Mem) (loc e : Nat) : Except EFail (Int × Nat) :=
  match decode_sleb128 m 12 loc e with
  | .ok v loc' => .ok (v, loc')
  | .err d => .error (.dw d)
  | .shiftOverflow b => .error (.crash (.shiftOverflow b))
  | .fuelOut => .error .fuelOut

/-- The dispatch loop of `evaluate` (`src/dwarf/expression.rs`, lines
166-427).  Each arm transcribes the corresponding `DW_OP_*` arm of the Rust
`match`.  As in the source, `loc` is never advanced past the opcode byte
itself: operand reads start at the opcode address, and arms without
operands leave `loc` unchanged.  Unknown opcodes hit `unimplemented!()` and
a `deref_size` operand other than 1/2/4/8 hits `unreachable!()`, both
surfaced as `Crash` values rather than `DwarfError`s. -/
def evaluateLoop (m : Mem) (registers : Registers) (e : Nat) :
    Nat → Nat → EvaluateStack → Except EFail Nat
  | 0, _, _ => .error .fuelOut
  | fuel + 1, loc, stack =>
    if loc < e then
      let opcode := load8 m loc
      if opcode = 0x03 then do       -- DW_OP_addr
        let st ← stack.push (load64 m loc)
        evaluateLoop m registers e fuel (loc + 8) st
      else if opcode = 0x06 then do  -- DW_OP_deref
        let (u1, st) ← stack.pop
        let st ← st.push (load64 m u1)
        evaluateLoop m registers e fuel loc st
      else if opcode = 0x08 then do  -- DW_OP_const1u
        let st ← stack.push (load8 m loc)
        evaluateLoop m registers e fuel (loc + 1) st
      else if opcode = 0x09 then do  -- DW_OP_const1s
        let st ← stack.push (toU64 (loadI8 m loc))
        evaluateLoop m registers e fuel (loc + 1) st
      else if opcode = 0x0A then do  -- DW_OP_const2u
        let st ← stack.push (load16 m loc)
        evaluateLoop m registers e fuel (loc + 2) st
      else if opcode = 0x0B then do  -- DW_OP_const2s
        let st ← stack.push (toU64 (loadI16 m loc))
        evaluateLoop m registers e fuel (loc + 2) st
      else if opcode = 0x0C then do  -- DW_OP_const4u
        let st ← stack.push (load32 m loc)
        evaluateLoop m registers e fuel (loc + 4) st
      else if opcode = 0x0D then do  -- DW_OP_const4s
        let st ← stack.push (toU64 (loadI32 m loc))
        evaluateLoop m registers e fuel (loc + 4) st
      else if opcode = 0x0E then do  -- DW_OP_const8u
        let st ← stack.push (load64 m loc)
        evaluateLoop m registers e fuel (loc + 8) st
      else if opcode = 0x0F then do  -- DW_OP_const8s
        let st ← stack.push (toU64 (loadI64 m loc))
        evaluateLoop m registers e fuel (loc + 8) st
      else if opcode = 0x10 then do  -- DW_OP_constu
        let (u1, loc) ← ulebE m loc e
        let st ← stack.push u1
        evaluateLoop m registers e fuel loc st
      else if opcode = 0x11 then do  -- DW_OP_consts
        let (s1, loc) ← slebE m loc e
        let st ← stack.push (toU64 s1)
        evaluateLoop m registers e fuel loc st
      else if opcode = 0x12 then do  -- DW_OP_dup (pop then push, as written)
        let (u1, st) ← stack.pop
        let st ← st.push u1
        evaluateLoop m registers e fuel loc st
      else if opcode = 0x13 then do  -- DW_OP_drop
        let (_, st) ← stack.pop
        evaluateLoop m registers e fuel loc st
      else if opcode = 0x14 then do  -- DW_OP_over
        let u1 ← stack.top 1
        let st ← stack.push u1
        evaluateLoop m registers e fuel loc st
      else if opcode = 0x15 then do  -- DW_OP_pick (reads the size at the opcode byte)
        let reg := load8 m loc
        let u1 ← stack.top reg
        let st ← stack.push u1
        evaluateLoop m registers e fuel (loc + 1) st
      else if opcode = 0x16 then do  -- DW_OP_swap
        let u1 ← stack.top 0
        let t1 ← stack.top 1
        let st ← stack.setTop 0 t1
        let st ← st.setTop 1 u1
        evaluateLoop m registers e fuel loc st
      else if opcode = 0x17 then do  -- DW_OP_rot
        let u1 ← stack.top 0
        let t1 ← stack.top 1
        let st ← stack.setTop 0 t1
        let t2 ← st.top 2
        let st ← st.setTop 1 t2
        let st ← st.setTop 2 u1
        evaluateLoop m registers e fuel loc st
      else if opcode = 0x18 then do  -- DW_OP_xderef (pop, then write top, as written)
        let (u1, st) ← stack.pop
        let st ← st.setTop 0 (load64 m u1)
        evaluateLoop m registers e fuel loc st
      else if opcode = 0x19 then do  -- DW_OP_abs
        let t0 ← stack.top 0
        let s1 := toI64 t0
        let st ← if s1 < 0 then stack.setTop 0 (toU64 (-s1)) else .ok stack
        evaluateLoop m registers e fuel loc st
      else if opcode = 0x1A then do  -- DW_OP_and
        let (u1, st) ← stack.pop
        let t0 ← st.top 0
        let st ← st.setTop 0 (t0 &&& u1)
        evaluateLoop m registers e fuel loc st
      else if opcode = 0x1B then do  -- DW_OP_div
        let (p, st) ← stack.pop
        let s1 := toI64 p
        let t0 ← st.top 0
        let s2 := toI64 t0
        if s1 = 0 then .error (.crash .divByZero)
        else do
          let st ← st.setTop 0 (toU64 (Int.tdiv s2 s1))
          evaluateLoop m registers e fuel loc st
      else if opcode = 0x1C then do  -- DW_OP_minus
        let (u1, st) ← stack.pop
        let t0 ← st.top 0
        let st ← st.setTop 0 (wsub t0 u1)
        evaluateLoop m registers e fuel loc st
      else if opcode = 0x1D then do  -- DW_OP_mod
        let (p, st) ← stack.pop
        let s1 := toI64 p
        let t0 ← st.top 0
        let s2 := toI64 t0
        if s1 = 0 then .error (.crash .divByZero)
        else do
          let st ← st.setTop 0 (toU64 (Int.tmod s2 s1))
          evaluateLoop m registers e fuel loc st
      else if opcode = 0x1E then do  -- DW_OP_mul
        let (p, st) ← stack.pop
        let s1 := toI64 p
        let t0 ← st.top 0
        let s2 := toI64 t0
        let st ← st.setTop 0 (toU64 (s2 * s1))
        evaluateLoop m registers e fuel loc st
      else if opcode = 0x1F then do  -- DW_OP_neg
        let t0 ← stack.top 0
        let st ← stack.setTop 0 (wsub 0 t0)
        evaluateLoop m registers e fuel loc st
      else if opcode = 0x20 then do  -- DW_OP_not
        let t0 ← stack.top 0
        let s1 := toI64 t0
        let st ← stack.setTop 0 (toU64 (-(s1 + 1)))
        evaluateLoop m registers e fuel loc st
      else if opcode = 0x21 then do  -- DW_OP_or
        let (u1, st) ← stack.pop
        let t0 ← st.top 0
        let st ← st.setTop 0 (t0 ||| u1)
        evaluateLoop m registers e fuel loc st
      else if opcode = 0x22 then do  -- DW_OP_plus
        let (u1, st) ← stack.pop
        let t0 ← st.top 0
        let st ← st.setTop 0 (wadd t0 u1)
        evaluateLoop m registers e fuel loc st
      else if opcode = 0x23 then do  -- DW_OP_plus_uconst
        let (u1, loc) ← ulebE m loc e
        let t0 ← stack.top 0
        let st ← stack.setTop 0 (wadd t0 u1)
        evaluateLoop m registers e fuel loc st
      else if opcode = 0x24 then do  -- DW_OP_shl (release-mode masked shift)
        let (u1, st) ← stack.pop
        let t0 ← st.top 0
        let st ← st.setTop 0 (t0 * 2 ^ (u1 % 64) % U64MOD)
        evaluateLoop m registers e fuel loc st
      else if opcode = 0x25 then do  -- DW_OP_shr (release-mode masked shift)
        let (u1, st) ← stack.pop
        let t0 ← st.top 0
        let st ← st.setTop 0 (t0 % U64MOD / 2 ^ (u1 % 64))
        evaluateLoop m registers e fuel loc st
      else if opcode = 0x26 then do  -- DW_OP_shra (arithmetic, masked shift)
        let (u1, st) ← stack.pop
        let t0 ← st.top 0
        let s1 := toI64 t0
        let st ← st.setTop 0 (toU64 (s1 / 2 ^ (u1 % 64)))
        evaluateLoop m registers e fuel loc st
      else if opcode = 0x27 then do  -- DW_OP_xor
        let (u1, st) ← stack.pop
        let t0 ← st.top 0
        let st ← st.setTop 0 (t0 ^^^ u1)
        evaluateLoop m registers e fuel loc st
      else if opcode = 0x2F then do  -- DW_OP_skip
        let s1 := loadI16 m loc
        let loc := toU64 ((loc : Int) + 2 + s1)
        evaluateLoop m registers e fuel loc stack
      else if opcode = 0x28 then do  -- DW_OP_bra
        let s1 := loadI16 m loc
        let (c, st) ← stack.pop
        let loc := if c ≠ 0 then toU64 ((loc : Int) + 2 + s1) else loc + 2
        evaluateLoop m registers e fuel loc st
      else if opcode = 0x29 then do  -- DW_OP_eq
        let (u1, st) ← stack.pop
        let t0 ← st.top 0
        let st ← st.setTop 0 (if t0 = u1 then 1 else 0)
        evaluateLoop m registers e fuel loc st
      else if opcode = 0x2A then do  -- DW_OP_ge
        let (u1, st) ← stack.pop
        let t0 ← st.top 0
        let st ← st.setTop 0 (if u1 ≤ t0 then 1 else 0)
        evaluateLoop m registers e fuel loc st
      else if opcode = 0x2B then do  -- DW_OP_gt
        let (u1, st) ← stack.pop
        let t0 ← st.top 0
        let st ← st.setTop 0 (if u1 < t0 then 1 else 0)
        evaluateLoop m registers e fuel loc st
      else if opcode = 0x2C then do  -- DW_OP_le
        let (u1, st) ← stack.pop
        let t0 ← st.top 0
        let st ← st.setTop 0 (if t0 ≤ u1 then 1 else 0)
        evaluateLoop m registers e fuel loc st
      else if opcode = 0x2D then do  -- DW_OP_lt
        let (u1, st) ← stack.pop
        let t0 ← st.top 0
        let st ← st.setTop 0 (if t0 < u1 then 1 else 0)
        evaluateLoop m registers e fuel loc st
      else if opcode = 0x2E then do  -- DW_OP_ne
        let (u1, st) ← stack.pop
        let t0 ← st.top 0
        let st ← st.setTop 0 (if t0 ≠ u1 then 1 else 0)
        evaluateLoop m registers e fuel loc st
      else if 0x30 ≤ opcode ∧ opcode ≤ 0x4F then do  -- DW_OP_lit0..=lit31
        let st ← stack.push (opcode - 0x30)
        evaluateLoop m registers e fuel loc st
      else if 0x50 ≤ opcode ∧ opcode ≤ 0x6F then do  -- DW_OP_reg0..=reg31
        let v ← regRead registers (opcode - 0x50)
        let st ← stack.push v
        evaluateLoop m registers e fuel loc st
      else if 0x70 ≤ opcode ∧ opcode ≤ 0x8F then do  -- DW_OP_breg0..=breg31
        let reg := opcode - 0x70
        let (s1, loc) ← slebE m loc e
        let v ← regRead registers reg
        let st ← stack.push (toU64 (s1 + toI64 v))
        evaluateLoop m registers e fuel loc st
      else if opcode = 0x90 then do  -- DW_OP_regx (value truncated `as u32`)
        let (u, loc) ← ulebE m loc e
        let v ← regRead registers (u % 2 ^ 32)
        let st ← stack.push v
        evaluateLoop m registers e fuel loc st
      else if opcode = 0x92 then do  -- DW_OP_bregx
        let (u, loc) ← ulebE m loc e
        let (s1, loc) ← slebE m loc e
        let v ← regRead registers (u % 2 ^ 32)
        let st ← stack.push (toU64 (s1 + toI64 v))
        evaluateLoop m registers e fuel loc st
      else if opcode = 0x94 then do  -- DW_OP_deref_size (size read at the opcode byte)
        let (u1, st) ← stack.pop
        let n := load8 m loc
        if n = 1 then do
          let st ← st.push (load8 m u1)
          evaluateLoop m registers e fuel (loc + 1) st
        else if n = 2 then do
          let st ← st.push (load16 m u1)
          evaluateLoop m registers e fuel (loc + 1) st
        else if n = 4 then do
          let st ← st.push (load32 m u1)
          evaluateLoop m registers e fuel (loc + 1) st
        else if n = 8 then do
          let st ← st.push (load64 m u1)
          evaluateLoop m registers e fuel (loc + 1) st
        else .error (.crash (.invalidDerefSize n))
      else .error (.crash (.unimplementedOpcode opcode))
    else stack.top 0

/-- Model of `evaluate` (`src/dwarf/expression.rs`, lines 166-427): read the
ULEB128 length prefix with the ad-hoc 20-byte guard, push `initial_stack`,
run the dispatch loop, and return `stack.top(0)` at end of program. -/
def evaluate (m : Mem) (fuel expression : Nat) (registers : Registers)
    (initial_stack : Nat) : Except EFail Nat :=
  match decode_uleb128 m 12 expression (expression + 20) with
  | .ok len loc0 =>
      match EvaluateStack.default.push initial_stack with
      | .ok st => evaluateLoop m registers (expression + len) fuel loc0 st
      | .error err => .error err
  | .err d => .error (.dw d)
  | .fuelOut => .error .fuelOut

/-- The all-zero register bank. -/
def regZero : Registers := fun _ => 0

/-- Expression at 1000: length prefix 2, single opcode 0xE0 (DW_OP_lo_user,
not implemented by the VM). -/
def c3MemA : Mem := fun x => if x = 1000 then 2 else if x = 1001 then 0xE0 else 0

/-- Expression at 1000: length prefix 2, single opcode 0x94
(DW_OP_deref_size); because `loc` still points at the opcode, the size byte
read is 0x94 itself, which is not 1/2/4/8. -/
def c3MemB : Mem := fun x => if x = 1000 then 2 else if x = 1001 then 0x94 else 0

/-- Expression at 1000 with length prefix 0: the empty program. -/
def c3MemC : Mem := fun _ => 0

/-- C3 (as the code actually behaves): on an unimplemented opcode `evaluate`
panics through `unimplemented!()`, and on a bad `deref_size` operand it
panics through `unreachable!()` — it does not return
`InvalidExpression`/`InvalidExpressionDerefSize` `DwarfError`s (the function
returns a bare `u64`, so it cannot).  On normal end of program it does
return the top of the evaluation stack. -/
theorem C3_evaluate_panics :
    evaluate c3MemA 10 1000 regZero 0
      = .error (.crash (.unimplementedOpcode 0xE0))
    ∧ evaluate c3MemB 10 1000 regZero 0
      = .error (.crash (.invalidDerefSize 0x94))
    ∧ evaluate c3MemC 10 1000 regZero 42 = .ok 42
    ∧ (∀ op a, Crash.unimplementedOpcode op ≠ Crash.invalidDerefSize a) := by
  refine ⟨by rfl, by rfl, by rfl, ?_⟩
  intro op a
  simp

/-- Expression at 3000: length prefix 2, single DW_OP_drop.  Because `loc`
never advances past the opcode, the drop repeats: the second execution pops
with `len == 0`, computing `self.len - 1` on an empty stack. -/
def c9MemDrop : Mem := fun x => if x = 3000 then 2 else if x = 3001 then 0x13 else 0

/-- Expression at 4000: length prefix 2, single DW_OP_lit0.  The loop pushes
forever; the 101st push (counting the initial-value push) indexes
`stack[100]` of the 100-slot array. -/
def c9MemLit : Mem := fun x => if x = 4000 then 2 else if x = 4001 then 0x30 else 0

theorem c9_lit_step (f : Nat) (st : EvaluateStack) :
    evaluateLoop c9MemLit regZero 4002 (f + 1) 4001 st
      = (st.push 0).bind (fun st2 => evaluateLoop c9MemLit regZero 4002 f 4001 st2) := by
  simp only [evaluateLoop]
  norm_num [load8, c9MemLit]
  rfl

theorem c9_lit_overflow :
    ∀ f (st : EvaluateStack), st.len ≤ 100 → 100 - st.len < f →
      evaluateLoop c9MemLit regZero 4002 f 4001 st
        = .error (.crash .stackIndexOOB) := by
  intro f
  induction f with
  | zero => intro st h1 h2; omega
  | succ f ih =>
    intro st h1 h2
    rw [c9_lit_step]
    by_cases hfull : st.len < 100
    · simp only [EvaluateStack.push, hfull, if_true, Except.bind]
      exact ih _ (by simp; omega) (by simp; omega)
    · simp [EvaluateStack.push, hfull, Except.bind]

/-- C9: the evaluation stack is unguarded.  A program whose stack effect is
unbalanced makes `evaluate` perform an out-of-bounds array access — a pop on
an empty stack (`self.len - 1` with `len == 0`), or a 101st push past the
100-slot array — rather than return any `DwarfError`; `evaluate` is not
total over expression programs. -/
theorem C9_evaluate_stack_unguarded :
    evaluate c9MemDrop 10 3000 regZero 0 = .error (.crash .stackIndexOOB)
    ∧ evaluate c9MemLit 101 4000 regZero 0 = .error (.crash .stackIndexOOB)
    ∧ (∀ d : DwarfError, EFail.crash .stackIndexOOB ≠ .dw d) := by
  refine ⟨by rfl, ?_, by intro d; simp⟩
  have h1 : decode_uleb128 c9MemLit 12 4000 4020 = .ok 2 4001 := by decide
  simp only [evaluate, h1]
  have h2 : EvaluateStack.default.push 0
      = .ok ⟨1, fun i => if i = 0 then 0 else (fun _ => 0) i⟩ := by
    simp [EvaluateStack.push, EvaluateStack.default]
  rw [h2]
  exact c9_lit_overflow 101 _ (by simp) (by simp)

/-- `RegisterSavedWhere` (`src/dwarf/instruction.rs`). -/
inductive RegisterSavedWhere where
  | Unused
  | Undefined
  | InCFA
  | OffsetFromCFA
  | InRegister
  | AtExpression
  | IsExpression
  deriving DecidableEq, Repr

/-- `RegisterLocation` (`src/dwarf/instruction.rs`): `value` is the Rust
`i64`. -/
structure RegisterLocation where
  location : RegisterSavedWhere
  initial_state_saved : Bool
  value : Int
  deriving DecidableEq, Repr

/-- Model of `get_saved_register` (`src/dwarf/instruction.rs`, lines
154-163).  `InCFA` reads `u64` at `(cfa as i64 + value) as u64`;
`InRegister` — as written in this variant — reads `u64` at the address
`value`, a memory dereference of the encoded register number;
`Unused`/`OffsetFromCFA` hit `unreachable!()`. -/
def get_saved_register (m : Mem) (fuel : Nat) (registers : Registers)
    (loc : RegisterLocation) (cfa : Nat) : Except EFail Nat :=
  match loc.location with
  | .InCFA => .ok (load64 m (toU64 (toI64 cfa + loc.value)))
  | .AtExpression => (evaluate m fuel (toU64 loc.value) registers cfa).map (load64 m)
  | .IsExpression => evaluate m fuel (toU64 loc.value) registers cfa
  | .InRegister => .ok (load64 m (toU64 loc.value))
  | .Undefined => .ok 0
  | _ => .error (.crash .unreachableLocation)

/-- Memory whose u64 at address 3 is 7. -/
def c2Mem : Mem := fun x => if x = 3 then 7 else 0

/-- Register bank whose register 3 (rbx) holds 42. -/
def c2Regs : Registers := fun i => if (i : Nat) = 3 then 42 else 0

/-- C2: with rule `InRegister` and encoded value 3,
`get_saved_register` returns the `u64` loaded from memory address 3 (here
7), not the current value of source register 3 (here 42), contradicting
the register-indirect reading required by the spec and implemented by the
repository's gimli-based variant (`src/dwarf.rs`,
`RegisterRule::Register(r) => registers[r]`). -/
theorem C2_in_register_dereferences_memory :
    get_saved_register c2Mem 10 c2Regs ⟨.InRegister, false, 3⟩ 0 = .ok 7
    ∧ load64 c2Mem 3 = 7
    ∧ c2Regs.get 3 = 42
    ∧ (7 : Nat) ≠ 42 := by
  refine ⟨by rfl, by rfl, by rfl, by norm_num⟩

/-- `PrologInfo` (`src/dwarf/instruction.rs`).  The Rust `saved_registers`
is `[RegisterLocation; MAX_REGISTER_NUM]` (287 slots); it is modelled as a
total function on register numbers. -/
structure PrologInfo where
  cfa_register : Nat
  cfa_register_offset : Int
  cfa_expression : Int
  sp_extra_arg_size : Nat
  saved_registers : Nat → RegisterLocation

/-- Model of `PrologInfo::default`. -/
def PrologInfo.default : PrologInfo :=
  ⟨0, 0, 0, 0, fun _ => ⟨.Unused, false, 0⟩⟩

/-- Model of `PrologInfo::cfa` (`src/dwarf/instruction.rs`, lines 95-103):
`registers[cfa_register] + cfa_register_offset` when a register rule is
set, the DWARF expression when an expression rule is set, `unreachable!()`
otherwise.  Indexing with an invalid register number panics. -/
def PrologInfo.cfa (info : PrologInfo) (registers : Registers) (m : Mem)
    (fuel : Nat) : Except EFail Nat :=
  if info.cfa_register ≠ 0 then
    if info.cfa_register ≤ UNW_X86_64_MAX_REG_NUM then
      .ok (toU64 (toI64 (registers.get info.cfa_register) + info.cfa_register_offset))
    else .error (.crash (.invalidRegisterIndex info.cfa_register))
  else if info.cfa_expression ≠ 0 then
    evaluate m fuel (toU64 info.cfa_expression) registers 0
  else .error (.crash .unreachableCfa)

/-- The register-restore loop of `dwarf::step` (`src/dwarf/mod.rs`, lines
120-145), one constructor case per iteration: `k` iterations remain and `n`
is the current register number; `cur` is `new_registers` and `ra` the
`return_address` accumulator.  On x86_64 the float/vector branches are dead
(`valid_float_register`/`valid_vector_register` are constant false). -/
def stepRestoreLoop (m : Mem) (fuel : Nat) (info : PrologInfo) (raReg : Nat)
    (registers : Registers) (cfa : Nat) :
    Nat → Nat → Registers → Nat → Except EFail (Registers × Nat)
  | 0, _, cur, ra => .ok (cur, ra)
  | k + 1, n, cur, ra =>
    if (info.saved_registers n).location ≠ .Unused then
      if Registers.valid_float_register n then
        .error (.crash .unreachableLocation)
      else if Registers.valid_vector_register n then
        .error (.crash .unreachableLocation)
      else if n = raReg then do
        let ra2 ← get_saved_register m fuel registers (info.saved_registers n) cfa
        stepRestoreLoop m fuel info raReg registers cfa k (n + 1) cur ra2
      else if Registers.valid_register n then do
        let v ← get_saved_register m fuel registers (info.saved_registers n) cfa
        stepRestoreLoop m fuel info raReg registers cfa k (n + 1) (cur.set n v) ra
      else .error (.dw (.InvalidRegisterNumber n))
    else if n = raReg then
      if ¬Registers.valid_register raReg then
        .error (.dw (.InvalidReturnAddressRegisterNumber raReg))
      else
        stepRestoreLoop m fuel info raReg registers cfa k (n + 1) cur (registers.get raReg)
    else stepRestoreLoop m fuel info raReg registers cfa k (n + 1) cur ra

/-- Model of the restore phase of `dwarf::step` (`src/dwarf/mod.rs`, lines
104-166) for x86_64: compute the CFA from the `PrologInfo`, seed
`new_registers[SP]` with it, run the register loop for
`0..=max_register_num` (17 iterations), and finally set the PC to the
accumulated return address.  `raReg` is `cie.return_address_register`.
The FDE/CIE search and the CFI interpreter that produce `info` are the
subject of other claims. -/
def step_restore (m : Mem) (fuel : Nat) (info : PrologInfo) (raReg : Nat)
    (registers : Registers) : Except EFail Registers := do
  let cfa ← info.cfa registers m fuel
  let new0 := registers.set UNW_REG_SP cfa
  let (new1, ra) ← stepRestoreLoop m fuel info raReg registers cfa 17 0 new0 0
  .ok (new1.set UNW_REG_IP ra)

/-- The return address `dwarf::step` reads from the unwind info: the saved
value of `cie.return_address_register` if it has a rule, the current value
of that register if it has none (leaf function), and 0 when the register
number lies outside the loop's range (the accumulator is never written). -/
def return_address_of (m : Mem) (fuel : Nat) (info : PrologInfo) (raReg : Nat)
    (registers : Registers) (cfa : Nat) : Except EFail Nat :=
  if raReg ≤ UNW_X86_64_MAX_REG_NUM then
    if (info.saved_registers raReg).location ≠ .Unused then
      get_saved_register m fuel registers (info.saved_registers raReg) cfa
    else .ok (registers.get raReg)
  else .ok 0

theorem stepRestoreLoop_spec (m : Mem) (fuel : Nat) (info : PrologInfo) (raReg : Nat)
    (registers : Registers) (cfa : Nat) :
    ∀ k n cur ra out,
      stepRestoreLoop m fuel info raReg registers cfa k n cur ra = .ok out →
      (∀ j, (j < n ∨ n + k ≤ j) → out.1.get j = cur.get j)
      ∧ (∀ j, n ≤ j → j < n + k →
          ((info.saved_registers j).location = .Unused ∨ j = raReg) →
          out.1.get j = cur.get j)
      ∧ ((raReg < n ∨ n + k ≤ raReg) → out.2 = ra)
      ∧ (n ≤ raReg → raReg < n + k →
          (((info.saved_registers raReg).location ≠ .Unused →
             get_saved_register m fuel registers (info.saved_registers raReg) cfa
               = .ok out.2)
           ∧ ((info.saved_registers raReg).location = .Unused →
             out.2 = registers.get raReg))) := by
  intro k
  induction k with
  | zero =>
    intro n cur ra out hstep
    simp only [stepRestoreLoop] at hstep
    cases hstep
    refine ⟨fun j _ => rfl, fun j h1 h2 _ => by omega, fun _ => rfl, fun h1 h2 => by omega⟩
  | succ k ih =>
    intro n cur ra out hstep
    simp only [stepRestoreLoop] at hstep
    by_cases hU : (info.saved_registers n).location = RegisterSavedWhere.Unused
    · -- rule is Unused
      rw [if_neg (by simp [hU])] at hstep
      by_cases hra : n = raReg
      · subst hra
        rw [if_pos rfl] at hstep
        by_cases hv : Registers.valid_register n = true
        · rw [if_neg (by simp [hv])] at hstep
          obtain ⟨ih1, ih2, ih3, ih4⟩ := ih (n + 1) cur (registers.get n) out hstep
          refine ⟨fun j hj => ih1 j (by omega), fun j h1 h2 h3 => ?_,
            fun hj => by omega,
            fun h1 h2 => ⟨fun hcon => absurd hU hcon, fun _ => ih3 (by omega)⟩⟩
          by_cases hjn : j = n
          · subst hjn; exact ih1 j (by omega)
          · exact ih2 j (by omega) (by omega) h3
        · rw [if_pos (by simpa using hv)] at hstep
          exact Except.noConfusion hstep
      · rw [if_neg hra] at hstep
        obtain ⟨ih1, ih2, ih3, ih4⟩ := ih (n + 1) cur ra out hstep
        refine ⟨fun j hj => ih1 j (by omega), fun j h1 h2 h3 => ?_,
          fun hj => ih3 (by omega), fun h1 h2 => ih4 (by omega) (by omega)⟩
        by_cases hjn : j = n
        · subst hjn; exact ih1 j (by omega)
        · exact ih2 j (by omega) (by omega) h3
    · -- rule is not Unused
      rw [if_pos hU] at hstep
      rw [if_neg (by simp [Registers.valid_float_register])] at hstep
      rw [if_neg (by simp [Registers.valid_vector_register])] at hstep
      by_cases hra : n = raReg
      · subst hra
        rw [if_pos rfl] at hstep
        cases hg : get_saved_register m fuel registers (info.saved_registers n) cfa with
        | error err =>
          rw [hg] at hstep
          exact Except.noConfusion hstep
        | ok ra2 =>
          rw [hg] at hstep
          obtain ⟨ih1, ih2, ih3, ih4⟩ := ih (n + 1) cur ra2 out hstep
          refine ⟨fun j hj => ih1 j (by omega), fun j h1 h2 h3 => ?_,
            fun hj => by omega,
            fun h1 h2 => ⟨fun _ => ?_, fun hcon => absurd hcon hU⟩⟩
          · by_cases hjn : j = n
            · subst hjn
              rcases h3 with h3 | h3
              · exact absurd h3 hU
              · exact ih1 j (by omega)
            · exact ih2 j (by omega) (by omega) h3
          · rw [ih3 (by omega)]
      · rw [if_neg hra] at hstep
        by_cases hv : Registers.valid_register n = true
        · rw [if_pos hv] at hstep
          cases hg : get_saved_register m fuel registers (info.saved_registers n) cfa with
          | error err =>
            rw [hg] at hstep
            exact Except.noConfusion hstep
          | ok v =>
            rw [hg] at hstep
            obtain ⟨ih1, ih2, ih3, ih4⟩ := ih (n + 1) (cur.set n v) ra out hstep
            refine ⟨fun j hj => ?_, fun j h1 h2 h3 => ?_,
              fun hj => ih3 (by omega), fun h1 h2 => ih4 (by omega) (by omega)⟩
            · rw [ih1 j (by omega)]
              exact Registers.get_set_ne cur n v j (by omega)
            · by_cases hjn : j = n
              · subst hjn
                rcases h3 with h3 | h3
                · exact absurd h3 hU
                · exact absurd h3 hra
              · rw [ih2 j (by omega) (by omega) h3]
                exact Registers.get_set_ne cur n v j hjn
        · rw [if_neg hv] at hstep
          exact Except.noConfusion hstep

/-- C1 (amended): for every successful x86_64 DWARF step — taking as given
the `PrologInfo` and CIE return-address register obtained from a found
FDE/CIE, and a computed CFA — the new PC equals the return address read
from the unwind info; the new SP equals the CFA whenever SP itself has no
CFI rule (a non-`Unused` SP rule overrides it); every register other than
PC and SP whose rule is `Unused` keeps its previous value; hence the set of
changed registers is contained in the union of `{PC, SP}` and the
registers with non-`Unused` rules (it need not equal that union). -/
theorem C1_step_effect (m : Mem) (fuel : Nat) (info : PrologInfo) (raReg : Nat)
    (registers : Registers) (cfa : Nat) (new : Registers)
    (hcfa : info.cfa registers m fuel = .ok cfa)
    (hstep : step_restore m fuel info raReg registers = .ok new) :
    return_address_of m fuel info raReg registers cfa = .ok (new.get UNW_REG_IP)
    ∧ ((info.saved_registers UNW_REG_SP).location = .Unused →
        new.get UNW_REG_SP = cfa)
    ∧ (∀ j, j < 17 → j ≠ UNW_REG_IP → j ≠ UNW_REG_SP →
        (info.saved_registers j).location = .Unused →
        new.get j = registers.get j)
    ∧ (∀ j, j < 17 → new.get j ≠ registers.get j →
        j = UNW_REG_IP ∨ j = UNW_REG_SP
          ∨ (info.saved_registers j).location ≠ .Unused) := by
  unfold step_restore at hstep
  rw [hcfa] at hstep
  replace hstep : (stepRestoreLoop m fuel info raReg registers cfa 17 0
      (registers.set UNW_REG_SP cfa) 0).bind
      (fun p => Except.ok (p.1.set UNW_REG_IP p.2)) = .ok new := hstep
  cases hloop : stepRestoreLoop m fuel info raReg registers cfa 17 0
      (registers.set UNW_REG_SP cfa) 0 with
  | error err =>
    rw [hloop] at hstep
    exact Except.noConfusion hstep
  | ok pair =>
    rw [hloop] at hstep
    have hnew : new = pair.1.set UNW_REG_IP pair.2 :=
      (Except.ok.inj
        (show Except.ok (pair.1.set UNW_REG_IP pair.2) = Except.ok new from hstep)).symm
    obtain ⟨s1, s2, s3, s4⟩ :=
      stepRestoreLoop_spec m fuel info raReg registers cfa 17 0
        (registers.set UNW_REG_SP cfa) 0 pair hloop
    have hip : new.get UNW_REG_IP = pair.2 := by
      rw [hnew]
      exact Registers.get_set_eq _ _ _ (by norm_num [UNW_REG_IP])
    have hother : ∀ j, j ≠ UNW_REG_IP → new.get j = pair.1.get j := by
      intro j hj
      rw [hnew]
      exact Registers.get_set_ne _ _ _ j hj
    have hra : return_address_of m fuel info raReg registers cfa = .ok pair.2 := by
      unfold return_address_of
      by_cases h16 : raReg ≤ UNW_X86_64_MAX_REG_NUM
      · rw [if_pos h16]
        obtain ⟨h4a, h4b⟩ := s4 (by omega) (by norm_num [UNW_X86_64_MAX_REG_NUM] at h16; omega)
        by_cases hu : (info.saved_registers raReg).location = RegisterSavedWhere.Unused
        · rw [if_neg (by simp [hu])]
          rw [h4b hu]
        · rw [if_pos hu]
          exact h4a hu
      · rw [if_neg h16]
        rw [s3 (Or.inr (by norm_num [UNW_X86_64_MAX_REG_NUM] at h16; omega))]
    have hunused : ∀ j, j < 17 → j ≠ UNW_REG_IP →
        ((info.saved_registers j).location = RegisterSavedWhere.Unused ∨ j = raReg) →
        new.get j = (registers.set UNW_REG_SP cfa).get j := by
      intro j hj hj16 hcase
      rw [hother j hj16]
      exact s2 j (by omega) (by omega) hcase
    refine ⟨by rw [hip]; exact hra, ?_, ?_, ?_⟩
    · intro hsp
      have := hunused UNW_REG_SP (by norm_num [UNW_REG_SP]) (by norm_num [UNW_REG_SP, UNW_REG_IP]) (Or.inl hsp)
      rw [this]
      exact Registers.get_set_eq _ _ _ (by norm_num [UNW_REG_SP])
    · intro j hj hip' hsp' hu
      have := hunused j hj hip' (Or.inl hu)
      rw [this]
      exact Registers.get_set_ne _ _ _ j (by simpa [UNW_REG_SP] using hsp')
    · intro j hj hchange
      by_contra hcon
      push_neg at hcon
      obtain ⟨hc1, hc2, hc3⟩ := hcon
      have := hunused j hj hc1 (Or.inl hc3)
      rw [Registers.get_set_ne _ _ _ j (by simpa [UNW_REG_SP] using hc2)] at this
      exact hchange this

/-- All-Unused `PrologInfo` with CFA rule `rsp + 16`. -/
def c1Info : PrologInfo :=
  { cfa_register := 7, cfa_register_offset := 16, cfa_expression := 0,
    sp_extra_arg_size := 0, saved_registers := fun _ => ⟨.Unused, false, 0⟩ }

/-- Registers with rsp = 100 and rip = 50. -/
def c1Regs : Registers := fun i =>
  if (i : Nat) = 7 then 100 else if (i : Nat) = 16 then 50 else 0

/-- The all-zero memory. -/
def memZero : Mem := fun _ => 0

/-- The expected outcome of the witness step. -/
def c1New : Registers := (c1Regs.set UNW_REG_SP 116).set UNW_REG_IP 50

/-- Witness for C1 on a concrete leaf-frame step. -/
theorem C1_step_effect_witness :
    return_address_of memZero 10 c1Info 16 c1Regs 116 = .ok (c1New.get UNW_REG_IP)
    ∧ c1New.get UNW_REG_SP = 116
    ∧ c1New.get 3 = c1Regs.get 3 := by
  have h := C1_step_effect memZero 10 c1Info 16 c1Regs 116 c1New (by rfl) (by rfl)
  exact ⟨h.1, h.2.1 (by rfl),
    h.2.2.1 3 (by norm_num) (by norm_num [UNW_REG_IP]) (by norm_num [UNW_REG_SP]) (by rfl)⟩

/-- `PrologInfo` whose SP register (7) carries an `InCFA` rule. -/
def c1xInfo : PrologInfo :=
  { cfa_register := 7, cfa_register_offset := 16, cfa_expression := 0,
    sp_extra_arg_size := 0,
    saved_registers := fun n =>
      if n = 7 then ⟨.InCFA, false, 0⟩ else ⟨.Unused, false, 0⟩ }

/-- Memory whose u64 at the CFA (116) is 999. -/
def c1xMem : Mem := fun x => if x = 116 then 231 else if x = 117 then 3 else 0

/-- Counterexample to C1 as stated: with an `InCFA` rule on SP the step
succeeds with `new.sp = 999` while the CFA is 116 (so `new.sp ≠ CFA`), and
the PC — a member of the claimed change set — keeps its old value 50, so
the set of changed registers does not equal
`{PC, SP} ∪ {non-Unused rules}`. -/
theorem C1_step_effect_counterexample :
    c1xInfo.cfa c1Regs c1xMem 10 = .ok 116
    ∧ (step_restore c1xMem 10 c1xInfo 16 c1Regs).map
        (fun r => (r.get UNW_REG_SP, r.get UNW_REG_IP)) = .ok (999, 50)
    ∧ (999 : Nat) ≠ 116
    ∧ c1Regs.get UNW_REG_IP = 50
    ∧ (c1xInfo.saved_registers UNW_REG_SP).location ≠ .Unused := by
  refine ⟨by rfl, by rfl, by norm_num, by rfl, by decide⟩

/-- `UnwindFuncInfo` (`src/compact/mod.rs`): start/end of the function and
its 32-bit compact unwind encoding.  `end` is a Lean keyword, hence
`endAddr`. -/
structure UnwindFuncInfo where
  start : Nat
  endAddr : Nat
  encoding : Nat
  deriving Repr

/-- Lehmer-code decompression of the frameless permutation
(`step_frameless`, `src/macos/x64/compact.rs` lines 83-133): six entries,
filled according to `reg_count`; missing entries keep the array default 0.
-/
def framelessRegs (reg_count permutation : Nat) : List Nat :=
  if reg_count = 6 ∨ reg_count = 5 then
    [permutation / 120, permutation % 120 / 24, permutation % 24 / 6,
     permutation % 6 / 2, permutation % 2, 0]
  else if reg_count = 4 then
    [permutation / 60, permutation % 60 / 12, permutation % 12 / 3,
     permutation % 3, 0, 0]
  else if reg_count = 3 then
    [permutation / 20, permutation % 20 / 4, permutation % 4, 0, 0, 0]
  else if reg_count = 2 then
    [permutation / 5, permutation % 5, 0, 0, 0, 0]
  else if reg_count = 1 then
    [permutation, 0, 0, 0, 0, 0]
  else [0, 0, 0, 0, 0, 0]

/-- The inner renumbering scan (`for u in 1..7`): find the `target`-th
still-unused register index in `{1..6}`, walking `u` with counter
`reg_num`; returns 0 (the array default) when no break fires, exactly as
the Rust loop leaves `register_saved[n]` untouched. -/
def pickUnused (used : Nat → Bool) (target : Nat) : Nat → Nat → Nat
  | u, reg_num =>
    if h : 7 ≤ u then 0
    else if !used u then
      (if reg_num = target then u
       else pickUnused used target (u + 1) (reg_num + 1))
    else pickUnused used target (u + 1) reg_num
termination_by u _ => 7 - u

/-- The outer renumbering loop (`for n in 0..reg_count`): threads the
`used` array and produces `register_saved[n]` for each `n`. -/
def renumber (regs : List Nat) (used : Nat → Bool) : Nat → Nat → List Nat
  | _, 0 => []
  | n, k + 1 =>
    let u := pickUnused used (regs.getD n 0) 1 0
    u :: renumber regs (fun i => if i = u then true else used i) (n + 1) k

/-- One register restore of the frameless loop: `register_saved[n]`
selects the target slot (gimli/DWARF numbering: RBX=3, R12=12, R13=13,
R14=14, R15=15, RBP=6); 0 or any other value hits `unreachable!()`. -/
def restoreSaved (m : Mem) (cur : Registers) (sel addr : Nat) :
    Except EFail Registers :=
  if sel = 1 then .ok (cur.set 3 (load64 m addr))
  else if sel = 2 then .ok (cur.set 12 (load64 m addr))
  else if sel = 3 then .ok (cur.set 13 (load64 m addr))
  else if sel = 4 then .ok (cur.set 14 (load64 m addr))
  else if sel = 5 then .ok (cur.set 15 (load64 m addr))
  else if sel = 6 then .ok (cur.set 6 (load64 m addr))
  else .error (.crash .unreachableLocation)

/-- The register-restore loop of `step_frameless` (lines 152-167). -/
def framelessRestoreLoop (m : Mem) (saved : List Nat) (addr : Nat) :
    Registers → Except EFail Registers
  | cur =>
    match saved with
    | [] => .ok cur
    | sel :: rest => do
      let cur ← restoreSaved m cur sel addr
      framelessRestoreLoop m rest (wadd addr 8) cur

/-- Model of `step_frameless` (`src/macos/x64/compact.rs`, lines 59-176).
Field extraction, stack-size computation (immediate or indirect via the
`subl` immediate in the prolog), Lehmer decompression, renumbering,
register restores, and the final frameless unwind: the return address is
loaded from `rsp + stack_size - 8`, and — as written in the source — the
new RSP is the u64 *loaded from* `rsp + stack_size`, not the address value
itself. -/
def step_frameless (m : Mem) (registers : Registers) (info : UnwindFuncInfo)
    (imm : Bool) : Except EFail Registers := do
  let stack_size_encoded := info.encoding / 2 ^ 16 % 2 ^ 8
  let stack_adjust := info.encoding / 2 ^ 13 % 2 ^ 3
  let reg_count := info.encoding / 2 ^ 10 % 2 ^ 3
  let permutation := info.encoding % 2 ^ 10
  let stack_size :=
    if imm then stack_size_encoded * 8
    else (load32 m (info.start + stack_size_encoded) + 8 * stack_adjust) % 2 ^ 32
  let regs := framelessRegs reg_count permutation
  let register_saved := renumber regs (fun _ => false) 0 reg_count
  let saved_registers :=
    wsub (wadd (registers.get 7) stack_size) (8 + 8 * reg_count)
  let cur ← framelessRestoreLoop m register_saved saved_registers registers
  let after := wadd saved_registers (8 * reg_count)
  let cur := cur.set 16 (load64 m after)
  let cur := cur.set 7 (load64 m (wadd after 8))
  .ok cur

/-- Memory for the C4 run: the u64 at 1000 (= rsp + stack_size - 8) is 77
and the u64 at 1008 (= rsp + stack_size) is 55. -/
def c4Mem : Mem := fun x => if x = 1000 then 77 else if x = 1008 then 55 else 0

/-- Registers with rsp = 1000. -/
def c4Regs : Registers := fun i => if (i : Nat) = 7 then 1000 else 0

/-- STACK_IMMD encoding with stack size 8 (one 8-byte unit) and no saved
registers: 0x02010000. -/
def c4Info : UnwindFuncInfo := ⟨0, 0, 0x02010000⟩

/-- C4: on a frameless step the code sets the new RIP to the u64 at
`rsp + stack_size - 8` (here 77), but sets the new RSP to the u64 *loaded
from* `rsp + stack_size` (here 55) instead of the address value
`rsp + stack_size = 1008` itself, contradicting the claim (and the LLVM
libunwind algorithm the spec describes). -/
theorem C4_frameless_rsp_loaded_from_memory :
    (step_frameless c4Mem c4Regs c4Info true).map
        (fun r => (r.get 16, r.get 7)) = .ok (77, 55)
    ∧ load64 c4Mem (1000 + 8 - 8) = 77
    ∧ load64 c4Mem (1000 + 8) = 55
    ∧ (55 : Nat) ≠ 1000 + 8 := by
  refine ⟨by rfl, by rfl, by rfl, by norm_num⟩

/-- Modelled from the spec: `dwarf/consts.rs` is absent from `src/`; these
are the standard `DW_EH_PE_*` values the spec lists in §4.4. -/
def DW_EH_PE_PTR : Nat := 0x00

/-- ULEB128 value encoding. -/
def DW_EH_PE_ULEB128 : Nat := 0x01

/-- 2-byte unsigned value encoding. -/
def DW_EH_PE_UDATA2 : Nat := 0x02

/-- 4-byte unsigned value encoding. -/
def DW_EH_PE_UDATA4 : Nat := 0x03

/-- 8-byte unsigned value encoding. -/
def DW_EH_PE_UDATA8 : Nat := 0x04

/-- SLEB128 value encoding. -/
def DW_EH_PE_SLEB128 : Nat := 0x09

/-- 2-byte signed value encoding. -/
def DW_EH_PE_SDATA2 : Nat := 0x0A

/-- 4-byte signed value encoding. -/
def DW_EH_PE_SDATA4 : Nat := 0x0B

/-- 8-byte signed value encoding. -/
def DW_EH_PE_SDATA8 : Nat := 0x0C

/-- Absolute relocation base. -/
def DW_EH_PE_ABSPTR : Nat := 0x00

/-- PC-relative relocation base. -/
def DW_EH_PE_PCREL : Nat := 0x10

/-- Data-relative relocation base. -/
def DW_EH_PE_DATAREL : Nat := 0x30

/-- Indirection flag. -/
def DW_EH_PE_INDIRECT : Nat := 0x80

/-- Omitted-value encoding. -/
def DW_EH_PE_OMIT : Nat := 0xFF

/-- Model of `decode_pointer` (`src/dwarf/encoding.rs`, lines 5-88):
returns the decoded value and the advanced cursor.  Signed encodings add a
possibly negative offset with wrapping semantics. -/
def decode_pointer (m : Mem) (loc e enc datarel_base : Nat) :
    Except EFail (Nat × Nat) := do
  let offsel := enc / 16 % 8 * 16
  let offset ←
    if offsel = DW_EH_PE_ABSPTR then .ok 0
    else if offsel = DW_EH_PE_PCREL then .ok loc
    else if offsel = DW_EH_PE_DATAREL then
      (if datarel_base = 0 then .error (.dw .InvalidDataRelBase)
       else .ok datarel_base)
    else .error (.dw (.InvalidPointerEncodingOffset offsel))
  let valsel := enc % 16
  let (res, loc) ←
    if valsel = DW_EH_PE_PTR then
      .ok (wadd (load64 m loc) offset, loc + 8)
    else if valsel = DW_EH_PE_ULEB128 then do
      let (v, loc) ← ulebE m loc e
      .ok (wadd v offset, loc)
    else if valsel = DW_EH_PE_UDATA2 then
      .ok (wadd (load16 m loc) offset, loc + 2)
    else if valsel = DW_EH_PE_UDATA4 then
      .ok (wadd (load32 m loc) offset, loc + 4)
    else if valsel = DW_EH_PE_UDATA8 then
      .ok (wadd (load64 m loc) offset, loc + 8)
    else if valsel = DW_EH_PE_SLEB128 then do
      let (v, loc) ← slebE m loc e
      .ok (if 0 < v then wadd (toU64 v) offset else wsub offset (toU64 (-v)), loc)
    else if valsel = DW_EH_PE_SDATA2 then
      let v := loadI16 m loc
      .ok (if 0 < v then wadd (toU64 v) offset else wsub offset (toU64 (-v)), loc + 2)
    else if valsel = DW_EH_PE_SDATA4 then
      let v := loadI32 m loc
      .ok (if 0 < v then wadd (toU64 v) offset else wsub offset (toU64 (-v)), loc + 4)
    else if valsel = DW_EH_PE_SDATA8 then
      let v := loadI64 m loc
      .ok (if 0 < v then wadd (toU64 v) offset else wsub offset (toU64 (-v)), loc + 8)
    else .error (.dw (.InvalidPointerEncodingValue valsel))
  if enc / 128 % 2 = 1 then .ok (load64 m res, loc)
  else .ok (res, loc)

/-- `CommonInformationEntry` (`src/dwarf/cfi.rs`, x86_64 build — no
`addresses_signed_with_b_key`). -/
structure CommonInformationEntry where
  cie_start : Nat
  cie_length : Nat
  cie_instructions : Nat
  pointer_encoding : Nat
  lsda_encoding : Nat
  personality_encoding : Nat
  personality_offset_in_cie : Nat
  personality : Nat
  code_align_factor : Nat
  data_align_factor : Int
  is_signal_frame : Bool
  fdes_have_augmentation_data : Bool
  return_address_register : Nat
  deriving Repr, DecidableEq

/-- `MAX_REGISTER_NUM` (`src/dwarf/instruction.rs`). -/
def MAX_REGISTER_NUM : Nat := 287

/-- Model of `PrologInfo::check_save_register`: the first mutation of a
register copies its prior slot into `initial_state` (with the flag still
clear, as the copy happens before the flag is set) and marks the flag. -/
def PrologInfo.checkSaveRegister (self initial : PrologInfo) (r : Nat) :
    PrologInfo × PrologInfo :=
  if ¬(self.saved_registers r).initial_state_saved then
    ({ self with saved_registers := fun i =>
        if i = r then { self.saved_registers r with initial_state_saved := true }
        else self.saved_registers i },
     { initial with saved_registers := fun i =>
        if i = r then self.saved_registers r else initial.saved_registers i })
  else (self, initial)

/-- Model of `PrologInfo::set_register`. -/
def PrologInfo.set_register (self : PrologInfo) (r : Nat)
    (new_loc : RegisterSavedWhere) (new_v : Int) (initial : PrologInfo) :
    PrologInfo × PrologInfo :=
  let (self, initial) := PrologInfo.checkSaveRegister self initial r
  ({ self with saved_registers := fun i =>
      if i = r then
        { self.saved_registers r with location := new_loc, value := new_v }
      else self.saved_registers i },
   initial)

/-- Model of `PrologInfo::set_register_location`. -/
def PrologInfo.set_register_location (self : PrologInfo) (r : Nat)
    (new_loc : RegisterSavedWhere) (initial : PrologInfo) :
    PrologInfo × PrologInfo :=
  let (self, initial) := PrologInfo.checkSaveRegister self initial r
  ({ self with saved_registers := fun i =>
      if i = r then { self.saved_registers r with location := new_loc }
      else self.saved_registers i },
   initial)

/-- Model of `PrologInfo::set_register_value`. -/
def PrologInfo.set_register_value (self : PrologInfo) (r : Nat)
    (new_v : Int) (initial : PrologInfo) : PrologInfo × PrologInfo :=
  let (self, initial) := PrologInfo.checkSaveRegister self initial r
  ({ self with saved_registers := fun i =>
      if i = r then { self.saved_registers r with value := new_v }
      else self.saved_registers i },
   initial)

/-- Model of `PrologInfo::restore_register_to_initial_state`. -/
def PrologInfo.restore_register_to_initial_state (self : PrologInfo) (r : Nat)
    (initial : PrologInfo) : PrologInfo :=
  if (self.saved_registers r).initial_state_saved then
    { self with saved_registers := fun i =>
        if i = r then initial.saved_registers r else self.saved_registers i }
  else self

/-- The mutable state of `run_` (`src/dwarf/instruction.rs`, lines
186-396): the accumulating `result`, the shadow `initial_state`, the
remember stack (the Rust intrusive on-stack linked list of saved
`PrologInfo` snapshots, modelled as a list of the saved values), the
cursor and the code offset. -/
structure CfiState where
  result : PrologInfo
  initialState : PrologInfo
  rememberStack : List PrologInfo
  loc : Nat
  codeOffset : Nat

/-- Rust `u64 as i32` (truncate to 32 bits, two's complement). -/
def toI32 (v : Nat) : Int :=
  if v % 2 ^ 32 < 2 ^ 31 then ((v % 2 ^ 32 : Nat) : Int)
  else ((v % 2 ^ 32 : Nat) : Int) - 2 ^ 32

/-- Rust `i64 as i32` (truncate to 32 bits, two's complement). -/
def toI32I (z : Int) : Int := toI32 (toU64 z)

/-- One iteration of the instruction loop of `run_`
(`src/dwarf/instruction.rs`, lines 199-393), assuming the loop condition
`loc < end && code_offset < pc_offset` was just checked.  The opcode names
follow the `DW_CFA_*` constants of the source; this is the x86_64 build,
so the `cfg(target_arch = "aarch64")` `negate_ra_state` arm (0x2D) is
absent and 0x2D falls through to the primary-opcode match.  The source's
final `DwarfError::InvalidOpcode` is the variant named
`InvalidInstruction` in `src/dwarf/mod.rs`. -/
def runInstr (m : Mem) (cie : CommonInformationEntry) (e : Nat)
    (s : CfiState) : Except EFail CfiState := do
  let opcode := load8 m s.loc
  let loc := s.loc + 1
  if opcode = 0x00 then .ok { s with loc := loc }          -- DW_CFA_nop
  else if opcode = 0x01 then do                            -- DW_CFA_set_loc
    let (v, loc) ← decode_pointer m loc e cie.pointer_encoding 0
    .ok { s with loc := loc, codeOffset := v }
  else if opcode = 0x02 then                               -- DW_CFA_advance_loc1
    .ok { s with loc := loc + 1, codeOffset := s.codeOffset + load8 m loc * cie.code_align_factor }
  else if opcode = 0x03 then                               -- DW_CFA_advance_loc2
    .ok { s with loc := loc + 2, codeOffset := s.codeOffset + load16 m loc * cie.code_align_factor }
  else if opcode = 0x04 then                               -- DW_CFA_advance_loc4
    .ok { s with loc := loc + 4, codeOffset := s.codeOffset + load32 m loc * cie.code_align_factor }
  else if opcode = 0x05 then do                            -- DW_CFA_offset_extended
    let (r, loc) ← ulebE m loc e
    if MAX_REGISTER_NUM < r then .error (.dw (.InvalidRegisterNumber r))
    else do
      let (o, loc) ← ulebE m loc e
      let offset := toI64 o * cie.data_align_factor
      let (res, ini) := s.result.set_register r .InCFA offset s.initialState
      .ok { s with result := res, initialState := ini, loc := loc }
  else if opcode = 0x06 then do                            -- DW_CFA_restore_extended
    let (r, loc) ← ulebE m loc e
    if MAX_REGISTER_NUM < r then .error (.dw (.InvalidRegisterNumber r))
    else
      .ok { s with result := s.result.restore_register_to_initial_state r s.initialState, loc := loc }
  else if opcode = 0x07 then do                            -- DW_CFA_undefined
    let (r, loc) ← ulebE m loc e
    if MAX_REGISTER_NUM < r then .error (.dw (.InvalidRegisterNumber r))
    else
      let (res, ini) := s.result.set_register_location r .Undefined s.initialState
      .ok { s with result := res, initialState := ini, loc := loc }
  else if opcode = 0x08 then do                            -- DW_CFA_same_value
    let (r, loc) ← ulebE m loc e
    if MAX_REGISTER_NUM < r then .error (.dw (.InvalidRegisterNumber r))
    else
      let (res, ini) := s.result.set_register_location r .Unused s.initialState
      .ok { s with result := res, initialState := ini, loc := loc }
  else if opcode = 0x09 then do                            -- DW_CFA_register
    let (r1, loc) ← ulebE m loc e
    if MAX_REGISTER_NUM < r1 then .error (.dw (.InvalidRegisterNumber r1))
    else do
      let (r2, loc) ← ulebE m loc e
      if MAX_REGISTER_NUM < r2 then .error (.dw (.InvalidRegisterNumber r2))
      else
        let (res, ini) := s.result.set_register r1 .InRegister (r2 : Int) s.initialState
        .ok { s with result := res, initialState := ini, loc := loc }
  else if opcode = 0x0A then                               -- DW_CFA_remember_state
    .ok { s with rememberStack := s.result :: s.rememberStack, loc := loc }
  else if opcode = 0x0B then                               -- DW_CFA_restore_state
    match s.rememberStack with
    | [] => .error (.dw .NoRememberState)
    | top :: rest => .ok { s with result := top, rememberStack := rest, loc := loc }
  else if opcode = 0x0C then do                            -- DW_CFA_def_cfa
    let (r, loc) ← ulebE m loc e
    if MAX_REGISTER_NUM < r then .error (.dw (.InvalidRegisterNumber r))
    else do
      let (o, loc) ← ulebE m loc e
      .ok { s with result := { s.result with cfa_register := r, cfa_register_offset := toI32 o }, loc := loc }
  else if opcode = 0x0D then do                            -- DW_CFA_def_cfa_register
    let (r, loc) ← ulebE m loc e
    if MAX_REGISTER_NUM < r then .error (.dw (.InvalidRegisterNumber r))
    else .ok { s with result := { s.result with cfa_register := r }, loc := loc }
  else if opcode = 0x0E then do                            -- DW_CFA_def_cfa_offset
    let (o, loc) ← ulebE m loc e
    .ok { s with result := { s.result with cfa_register_offset := toI32 o }, loc := loc }
  else if opcode = 0x0F then do                            -- DW_CFA_def_cfa_expression
    let res := { s.result with cfa_register := 0, cfa_expression := toI64 loc }
    let (len, loc) ← ulebE m loc e
    .ok { s with result := res, loc := loc + len }
  else if opcode = 0x10 then do                            -- DW_CFA_expression
    let (r, loc) ← ulebE m loc e
    if MAX_REGISTER_NUM < r then .error (.dw (.InvalidRegisterNumber r))
    else do
      let (res, ini) := s.result.set_register r .AtExpression (toI64 loc) s.initialState
      let (len, loc) ← ulebE m loc e
      .ok { s with result := res, initialState := ini, loc := loc + len }
  else if opcode = 0x11 then do                            -- DW_CFA_offset_extended_sf
    let (r, loc) ← ulebE m loc e
    if MAX_REGISTER_NUM < r then .error (.dw (.InvalidRegisterNumber r))
    else do
      let (o, loc) ← slebE m loc e
      let offset := o * cie.data_align_factor
      let (res, ini) := s.result.set_register r .InCFA offset s.initialState
      .ok { s with result := res, initialState := ini, loc := loc }
  else if opcode = 0x12 then do                            -- DW_CFA_def_cfa_sf
    let (r, loc) ← ulebE m loc e
    if MAX_REGISTER_NUM < r then .error (.dw (.InvalidRegisterNumber r))
    else do
      let (o, loc) ← slebE m loc e
      .ok { s with result := { s.result with cfa_register := r, cfa_register_offset := toI32I (o * cie.data_align_factor) }, loc := loc }
  else if opcode = 0x13 then do                            -- DW_CFA_def_cfa_offset_sf
    let (o, loc) ← slebE m loc e
    .ok { s with result := { s.result with cfa_register_offset := toI32I (o * cie.data_align_factor) }, loc := loc }
  else if opcode = 0x14 then do                            -- DW_CFA_val_offset
    let (r, loc) ← ulebE m loc e
    if MAX_REGISTER_NUM < r then .error (.dw (.InvalidRegisterNumber r))
    else do
      let (o, loc) ← ulebE m loc e
      let offset := toI64 o * cie.data_align_factor
      let (res, ini) := s.result.set_register r .OffsetFromCFA offset s.initialState
      .ok { s with result := res, initialState := ini, loc := loc }
  else if opcode = 0x15 then do                            -- DW_CFA_val_offset_sf
    let (r, loc) ← ulebE m loc e
    if MAX_REGISTER_NUM < r then .error (.dw (.InvalidRegisterNumber r))
    else do
      let (o, loc) ← slebE m loc e
      let offset := o * cie.data_align_factor
      let (res, ini) := s.result.set_register r .OffsetFromCFA offset s.initialState
      .ok { s with result := res, initialState := ini, loc := loc }
  else if opcode = 0x16 then do                            -- DW_CFA_val_expression
    let (r, loc) ← ulebE m loc e
    if MAX_REGISTER_NUM < r then .error (.dw (.InvalidRegisterNumber r))
    else do
      let (res, ini) := s.result.set_register r .IsExpression (toI64 loc) s.initialState
      let (len, loc) ← ulebE m loc e
      .ok { s with result := res, initialState := ini, loc := loc + len }
  else if opcode = 0x2E then do                            -- DW_CFA_GNU_args_size
    let (o, loc) ← ulebE m loc e
    .ok { s with result := { s.result with sp_extra_arg_size := o % 2 ^ 32 }, loc := loc }
  else if opcode = 0x2F then do                            -- DW_CFA_GNU_negative_offset_extended
    let (r, loc) ← ulebE m loc e
    if MAX_REGISTER_NUM < r then .error (.dw (.InvalidRegisterNumber r))
    else do
      let (o, loc) ← ulebE m loc e
      let offset := toI64 o * cie.data_align_factor
      let (res, ini) := s.result.set_register r .InCFA (-offset) s.initialState
      .ok { s with result := res, initialState := ini, loc := loc }
  else
    let operand := opcode % 64
    if opcode / 64 * 64 = 0x80 then do                     -- DW_CFA_offset
      let (o, loc) ← ulebE m loc e
      let offset := toI64 o * cie.data_align_factor
      let (res, ini) := s.result.set_register operand .InCFA offset s.initialState
      .ok { s with result := res, initialState := ini, loc := loc }
    else if opcode / 64 * 64 = 0x40 then                   -- DW_CFA_advance_loc
      .ok { s with loc := loc, codeOffset := s.codeOffset + operand * cie.code_align_factor }
    else if opcode / 64 * 64 = 0xC0 then                   -- DW_CFA_restore
      .ok { s with result := s.result.restore_register_to_initial_state operand s.initialState, loc := loc }
    else .error (.dw (.InvalidInstruction opcode))

/-- The loop of `run_`: execute until the cursor reaches `end` or the code
offset reaches the target `pc_offset`. -/
def runLoop (m : Mem) (cie : CommonInformationEntry) (e pc_offset : Nat) :
    Nat → CfiState → Except EFail CfiState
  | 0, _ => .error .fuelOut
  | fuel + 1, s =>
    if s.loc < e ∧ s.codeOffset < pc_offset then do
      let s ← runInstr m cie e s
      runLoop m cie e pc_offset fuel s
    else .ok s

/-- Model of `run_` (`src/dwarf/instruction.rs`, lines 186-396): run the
instruction stream `[start, end)` against `result`, with a fresh shadow
`initial_state` and an empty remember stack. -/
def run_ (m : Mem) (cie : CommonInformationEntry) (result : PrologInfo)
    (start e pc_offset fuel : Nat) : Except EFail PrologInfo :=
  (runLoop m cie e pc_offset fuel ⟨result, PrologInfo.default, [], start, 0⟩).map
    (fun s => s.result)

/-- C7: executing `DW_CFA_remember_state` immediately followed by
`DW_CFA_restore_state` — with no intervening instruction — returns the
interpreter to exactly its prior state (same accumulated `PrologInfo`,
same shadow state, same remember stack, same code offset), with only the
cursor advanced past the two opcode bytes. -/
theorem C7_remember_restore_noop (m : Mem) (cie : CommonInformationEntry)
    (e : Nat) (s : CfiState)
    (h1 : load8 m s.loc = 0x0A) (h2 : load8 m (s.loc + 1) = 0x0B) :
    (runInstr m cie e s).bind (runInstr m cie e)
      = .ok { s with loc := s.loc + 2 } := by
  have step1 : runInstr m cie e s
      = .ok { s with rememberStack := s.result :: s.rememberStack, loc := s.loc + 1 } := by
    simp only [runInstr, h1]
    norm_num
  rw [step1]
  show runInstr m cie e _ = _
  simp only [runInstr, h2]
  norm_num

/-- A zeroed CIE for the C7 witness. -/
def c7Cie : CommonInformationEntry :=
  ⟨0, 0, 0, 0, 0, 0, 0, 0, 1, 1, false, false, 16⟩

/-- Memory with `remember_state; restore_state` at 600. -/
def c7Mem : Mem := fun x => if x = 600 then 0x0A else if x = 601 then 0x0B else 0

/-- Initial interpreter state at 600 for the C7 witness. -/
def c7State : CfiState := ⟨PrologInfo.default, PrologInfo.default, [], 600, 0⟩

/-- Witness for C7 at a concrete state. -/
theorem C7_remember_restore_noop_witness :
    (runInstr c7Mem c7Cie 602 c7State).bind (runInstr c7Mem c7Cie 602)
      = .ok { c7State with loc := 602 } :=
  C7_remember_restore_noop c7Mem c7Cie 602 c7State (by rfl) (by rfl)

/-- `FrameDescriptionEntry` (`src/dwarf/cfi.rs`, lines 122-129). -/
structure FrameDescriptionEntry where
  fde_start : Nat
  fde_length : Nat
  fde_instructions : Nat
  pc_start : Nat
  pc_end : Nat
  lsda : Nat
  deriving Repr, DecidableEq

/-- `EhFrameHeader` (`src/dwarf/header.rs`, lines 20-27). -/
structure EhFrameHeader where
  start : Nat
  endAddr : Nat
  eh_frame : Nat
  fde_count : Nat
  table : Nat
  table_enc : Nat
  deriving Repr, DecidableEq

/-- Model of `EhFrameHeader::decode` (`src/dwarf/header.rs`, lines 56-77):
the four `RawEhFrameHeader` bytes are read at `start`, the version is
checked (the source's `HeaderInvalidVersion` is the variant named
`InvalidHeaderVersion` here), then the `eh_frame` pointer and the FDE
count are decoded.  The source as written in this file variant calls
`decode_pointer` without unwrapping its `Result` (the `encoding.rs` in
src returns `Result`); the model threads the error through, matching the
only way the two files compose. -/
def EhFrameHeader.decode (m : Mem) (start e : Nat) :
    Except EFail EhFrameHeader := do
  let version := load8 m start
  let eh_frame_ptr_enc := load8 m (start + 1)
  let fde_count_enc := load8 m (start + 2)
  let table_enc := load8 m (start + 3)
  let loc := start + 4
  if version ≠ 1 then .error (.dw (.InvalidHeaderVersion version))
  else do
    let (eh_frame, loc) ← decode_pointer m loc e eh_frame_ptr_enc start
    let (fde_count, loc) ←
      if fde_count_enc ≠ DW_EH_PE_OMIT then decode_pointer m loc e fde_count_enc start
      else .ok (0, loc)
    .ok ⟨start, e, eh_frame, fde_count, loc, table_enc⟩

/-- Entry-size match of `EhFrameHeader::search` (`src/dwarf/header.rs`,
lines 88-94).  The `DW_EH_PE_OMIT` arm is dead code (`table_enc & 0b1111`
is below 16 while `DW_EH_PE_OMIT` is 0xFF) and the final arm is the
source's `unreachable!()` panic, modelled as a `Crash`. -/
def entrySize (table_enc : Nat) : Except EFail Nat :=
  if table_enc % 16 = DW_EH_PE_OMIT then .ok 0
  else if table_enc % 16 = DW_EH_PE_UDATA2 ∨ table_enc % 16 = DW_EH_PE_SDATA2 then .ok 4
  else if table_enc % 16 = DW_EH_PE_UDATA4 ∨ table_enc % 16 = DW_EH_PE_SDATA4 then .ok 8
  else if table_enc % 16 = DW_EH_PE_UDATA8 ∨ table_enc % 16 = DW_EH_PE_SDATA8 then .ok 16
  else .error (.crash .unreachableEntrySize)

/-- The `while len > 1` binary-search loop of `EhFrameHeader::search`
(`src/dwarf/header.rs`, lines 95-110), fuelled (the loop always
terminates since `len` shrinks; theorems supply `fde_count` as fuel).
On `entry_target == target` the source sets `low = mid` and breaks, which
is returning `mid`. -/
def searchLoop (m : Mem) (hdr : EhFrameHeader) (esz target : Nat) :
    Nat → Nat → Nat → Except EFail Nat
  | 0, _, _ => .error .fuelOut
  | fuel + 1, low, len =>
    if 1 < len then
      match decode_pointer m (hdr.table + (low + len / 2) * esz) hdr.endAddr
          hdr.table_enc hdr.start with
      | .error e => .error e
      | .ok (entry_target, _) =>
        if entry_target = target then .ok (low + len / 2)
        else if entry_target < target then
          searchLoop m hdr esz target fuel (low + len / 2) (len - len / 2)
        else searchLoop m hdr esz target fuel low (len / 2)
    else .ok low

/-- Model of `EhFrameHeader::search` (`src/dwarf/header.rs`, lines
79-124).  `FrameDescriptionEntry::decode` (`src/dwarf/cfi.rs`) is taken
as the parameter `fdeDecode`: the claims quantify over its result, so
nothing about the byte-level FDE/CIE parser is assumed.  After the loop
the entry at `low` is re-decoded, its first pointer discarded, the second
taken as the FDE address, and the decoded FDE's PC range checked. -/
def EhFrameHeader.search (m : Mem)
    (fdeDecode : Nat → Except EFail (FrameDescriptionEntry × CommonInformationEntry))
    (hdr : EhFrameHeader) (target : Nat) :
    Except EFail (FrameDescriptionEntry × CommonInformationEntry) :=
  match entrySize hdr.table_enc with
  | .error e => .error e
  | .ok esz =>
    match searchLoop m hdr esz target hdr.fde_count 0 hdr.fde_count with
    | .error e => .error e
    | .ok low =>
      match decode_pointer m (hdr.table + low * esz) hdr.endAddr hdr.table_enc hdr.start with
      | .error e => .error e
      | .ok (_, loc) =>
        match decode_pointer m loc hdr.endAddr hdr.table_enc hdr.start with
        | .error e => .error e
        | .ok (fdeaddr, _) =>
          match fdeDecode fdeaddr with
          | .error e => .error e
          | .ok (fde, cie) =>
            if target < fde.pc_start ∨ fde.pc_end ≤ target then .error (.dw .FDENotFound)
            else .ok (fde, cie)

/-- `SectionInfo` (`src/dyld/linux.rs`, lines 14-21). -/
structure SectionInfo where
  base : Nat
  text : Nat
  text_len : Nat
  eh_frame_hdr : Nat
  eh_frame_hdr_len : Nat
  max_addr : Nat
  deriving Repr, DecidableEq

/-- Model of `SectionInfo::contains` (`src/dyld/linux.rs`, lines 26-28). -/
def SectionInfo.contains (s : SectionInfo) (target : Nat) : Bool :=
  decide (s.text ≤ target) && decide (target < wadd s.text s.text_len)

/-- Body of the containing-section branch of `UnwindCursor::step`
(`src/cursor/linux.rs`, lines 46-60).  `dwarf::scan` (`src/dwarf/mod.rs`,
lines 251-268) and the four-argument `dwarf::step` the cursor calls
(spec-modelled: that overload is absent from src — `src/dwarf/mod.rs`
only has the three-argument form — so it is taken as the parameter
`dwarfStep`) are parameters; the claims quantify over their results.
The source's early `return Ok(false)` on a double `FDENotFound` is
staged through an `Option`. -/
def sectionStep (m : Mem)
    (fdeDecode : Nat → Except EFail (FrameDescriptionEntry × CommonInformationEntry))
    (scan : Nat → Nat → Nat → Except EFail (FrameDescriptionEntry × CommonInformationEntry))
    (dwarfStep : Nat → FrameDescriptionEntry → CommonInformationEntry → Registers →
      Except EFail Registers)
    (s : SectionInfo) (pc : Nat) (registers : Registers) :
    Except EFail (Bool × Registers) :=
  match EhFrameHeader.decode m s.eh_frame_hdr (wadd s.eh_frame_hdr s.eh_frame_hdr_len) with
  | .error e => .error e
  | .ok header =>
    match (match EhFrameHeader.search m fdeDecode header pc with
           | .ok v => Except.ok (some v)
           | .error (.dw .FDENotFound) =>
             (match scan header.eh_frame (U64MOD - 1) pc with
              | .ok v => Except.ok (some v)
              | .error (EFail.dw .FDENotFound) => Except.ok none
              | .error err => Except.error err)
           | .error err => Except.error err :
           Except EFail (Option (FrameDescriptionEntry × CommonInformationEntry))) with
    | .error e => .error e
    | .ok none => .ok (false, registers)
    | .ok (some (fde, cie)) =>
      match dwarfStep pc fde cie registers with
      | .error e => .error e
      | .ok registers => .ok (true, registers)

/-- The `for s in self.sections` loop of `UnwindCursor::step`
(`src/cursor/linux.rs`, lines 45-62): the first section containing `pc`
decides the outcome; if none contains it the step returns `Ok(false)`. -/
def sectionLoop (m : Mem)
    (fdeDecode : Nat → Except EFail (FrameDescriptionEntry × CommonInformationEntry))
    (scan : Nat → Nat → Nat → Except EFail (FrameDescriptionEntry × CommonInformationEntry))
    (dwarfStep : Nat → FrameDescriptionEntry → CommonInformationEntry → Registers →
      Except EFail Registers)
    (pc : Nat) (registers : Registers) :
    List SectionInfo → Except EFail (Bool × Registers)
  | [] => .ok (false, registers)
  | s :: rest =>
    if s.contains pc then sectionStep m fdeDecode scan dwarfStep s pc registers
    else sectionLoop m fdeDecode scan dwarfStep pc registers rest

/-- Model of `UnwindCursor::step` (`src/cursor/linux.rs`, lines 31-63).
The cursor's mutable `first_step` flag is passed in and the updated flag
returned alongside the result; `pc == 0` returns before the flag is
touched, otherwise the flag is cleared and, when it was already clear,
the lookup PC is `pc - 1`. -/
def cursorStep (m : Mem)
    (fdeDecode : Nat → Except EFail (FrameDescriptionEntry × CommonInformationEntry))
    (scan : Nat → Nat → Nat → Except EFail (FrameDescriptionEntry × CommonInformationEntry))
    (dwarfStep : Nat → FrameDescriptionEntry → CommonInformationEntry → Registers →
      Except EFail Registers)
    (sections : List SectionInfo) (first_step : Bool) (registers : Registers) :
    Bool × Except EFail (Bool × Registers) :=
  let pc := registers.pc
  if pc = 0 then (first_step, .ok (false, registers))
  else
    (false, sectionLoop m fdeDecode scan dwarfStep
      (if first_step then pc else pc - 1) registers sections)

/-- Invariant lemma for `searchLoop`: on a strictly sorted table whose
entries decode successfully, starting from a window whose left endpoint
is at or below the target and with everything at or beyond the window
strictly above it, the loop lands on the largest in-window index at or
below the target. -/
theorem searchLoop_spec (m : Mem) (hdr : EhFrameHeader) (esz target count : Nat)
    (v : Nat → Nat)
    (hv : ∀ i, i < count →
      (decode_pointer m (hdr.table + i * esz) hdr.endAddr hdr.table_enc hdr.start).map
        Prod.fst = Except.ok (v i))
    (hs : ∀ i j, i < j → j < count → v i < v j) :
    ∀ fuel low len, len ≤ fuel → 1 ≤ len → low + len ≤ count →
      v low ≤ target →
      (∀ j, low + len ≤ j → j < count → target < v j) →
      ∃ r, searchLoop m hdr esz target fuel low len = Except.ok r ∧
        low ≤ r ∧ r < low + len ∧ v r ≤ target ∧
        ∀ j, j < count → v j ≤ target → j ≤ r := by
  intro fuel
  induction fuel with
  | zero => intro low len h1 h2 _ _ _; omega
  | succ n ih =>
    intro low len hlen hpos hcnt hlow hhigh
    by_cases hl : 1 < len
    · have hmidlt : low + len / 2 < count := by omega
      have hdec := hv (low + len / 2) hmidlt
      rcases hdp : decode_pointer m (hdr.table + (low + len / 2) * esz) hdr.endAddr
          hdr.table_enc hdr.start with e | p
      · rw [hdp] at hdec
        exact absurd hdec (by simp [Except.map])
      · rcases p with ⟨et, l2⟩
        rw [hdp] at hdec
        have hp1 : et = v (low + len / 2) := by simpa [Except.map] using hdec
        subst hp1
        simp only [searchLoop, hdp, hl, if_true]
        rcases lt_trichotomy (v (low + len / 2)) target with hlt | heq | hgt
        · rw [if_neg (ne_of_lt hlt), if_pos hlt]
          obtain ⟨r, h1, h2, h3, h4, h5⟩ :=
            ih (low + len / 2) (len - len / 2) (by omega) (by omega) (by omega)
              (le_of_lt hlt) (fun j hj1 hj2 => hhigh j (by omega) hj2)
          exact ⟨r, h1, by omega, by omega, h4, h5⟩
        · rw [if_pos heq]
          refine ⟨low + len / 2, rfl, by omega, by omega, le_of_eq heq, ?_⟩
          intro j hj hvj
          by_contra hgt2
          push_neg at hgt2
          have := hs (low + len / 2) j hgt2 hj
          omega
        · rw [if_neg (ne_of_gt hgt), if_neg (not_lt.mpr (le_of_lt hgt))]
          have hb : ∀ j, low + len / 2 ≤ j → j < count → target < v j := by
            intro j hj1 hj2
            rcases eq_or_lt_of_le hj1 with hje | hj3
            · rw [← hje]; exact hgt
            · have := hs (low + len / 2) j hj3 hj2
              omega
          obtain ⟨r, h1, h2, h3, h4, h5⟩ :=
            ih low (len / 2) (by omega) (by omega) (by omega) hlow hb
          exact ⟨r, h1, h2, by omega, h4, h5⟩
    · have hlen1 : len = 1 := by omega
      subst hlen1
      simp only [searchLoop, hl, if_false]
      refine ⟨low, rfl, le_refl _, by omega, hlow, ?_⟩
      intro j hj hvj
      by_contra hgt2
      push_neg at hgt2
      have := hhigh j (by omega) hj
      omega

/-- C5: `UnwindCursor::step` with `pc == 0` returns `Ok(false)` and
leaves the `first_step` flag untouched, for every memory, every oracle
and every section list (so in particular without reading memory);
otherwise the flag is cleared and the section/FDE lookup runs on `pc`
itself on the first step of the cursor's lifetime and on `pc - 1` on
every later step. -/
theorem C5_cursor_step_pc_handling (m : Mem)
    (fdeDecode : Nat → Except EFail (FrameDescriptionEntry × CommonInformationEntry))
    (scan : Nat → Nat → Nat → Except EFail (FrameDescriptionEntry × CommonInformationEntry))
    (dwarfStep : Nat → FrameDescriptionEntry → CommonInformationEntry → Registers →
      Except EFail Registers)
    (sections : List SectionInfo) (first_step : Bool) (registers : Registers) :
    (registers.pc = 0 →
      cursorStep m fdeDecode scan dwarfStep sections first_step registers
        = (first_step, Except.ok (false, registers)))
    ∧ (registers.pc ≠ 0 →
      cursorStep m fdeDecode scan dwarfStep sections first_step registers
        = (false, sectionLoop m fdeDecode scan dwarfStep
            (if first_step then registers.pc else registers.pc - 1) registers sections)) := by
  constructor
  · intro h
    simp [cursorStep, h]
  · intro h
    simp [cursorStep, h]

/-- Always-`FDENotFound` FDE decoder, for witnesses. -/
def c5F : Nat → Except EFail (FrameDescriptionEntry × CommonInformationEntry) :=
  fun _ => .error (.dw .FDENotFound)

/-- Always-`FDENotFound` scan oracle, for witnesses. -/
def c5Scan : Nat → Nat → Nat → Except EFail (FrameDescriptionEntry × CommonInformationEntry) :=
  fun _ _ _ => .error (.dw .FDENotFound)

/-- Identity step oracle, for witnesses. -/
def c5D : Nat → FrameDescriptionEntry → CommonInformationEntry → Registers →
    Except EFail Registers :=
  fun _ _ _ r => .ok r

/-- Witness for C5 at concrete register banks with `pc = 0` and `pc = 5`. -/
theorem C5_cursor_step_pc_handling_witness :
    cursorStep memZero c5F c5Scan c5D [] true regZero = (true, Except.ok (false, regZero))
    ∧ cursorStep memZero c5F c5Scan c5D [] false (regZero.set 16 5)
        = (false, sectionLoop memZero c5F c5Scan c5D 4 (regZero.set 16 5) []) :=
  ⟨(C5_cursor_step_pc_handling memZero c5F c5Scan c5D [] true regZero).1 (by decide),
   (C5_cursor_step_pc_handling memZero c5F c5Scan c5D [] false (regZero.set 16 5)).2
     (by decide)⟩

/-- C6: the `.eh_frame_hdr` binary search and its error recovery.
Conjunct 1: on a strictly sorted table whose entries decode to `v i`,
with at least one entry and `v 0 ≤ target`, the search loop succeeds and
returns the largest index whose entry value is at most the target.
Conjunct 2: when the FDE decoded from the found entry fails the PC-range
check, `search` fails with `FDENotFound`.  Conjuncts 3-6, about the
cursor's section loop on a containing section whose header decodes:
a `FDENotFound` from `search` followed by a `FDENotFound` from the scan
yields `Ok(false)`; a non-`FDENotFound` scan error propagates; a
non-`FDENotFound` search error propagates (the scan is not consulted);
and a successful scan after `FDENotFound` feeds the recovered FDE/CIE to
the step oracle. -/
theorem C6_header_search_recovery :
    (∀ (m : Mem) (hdr : EhFrameHeader) (esz target : Nat) (v : Nat → Nat),
      (∀ i, i < hdr.fde_count →
        (decode_pointer m (hdr.table + i * esz) hdr.endAddr hdr.table_enc hdr.start).map
          Prod.fst = Except.ok (v i)) →
      (∀ i j, i < j → j < hdr.fde_count → v i < v j) →
      1 ≤ hdr.fde_count → v 0 ≤ target →
      ∃ low, searchLoop m hdr esz target hdr.fde_count 0 hdr.fde_count = Except.ok low ∧
        low < hdr.fde_count ∧ v low ≤ target ∧
        ∀ j, j < hdr.fde_count → v j ≤ target → j ≤ low)
    ∧ (∀ (m : Mem) fdeDecode (hdr : EhFrameHeader) (target esz low x loc1 fdeaddr loc2 : Nat)
        (f : FrameDescriptionEntry) (c : CommonInformationEntry),
      entrySize hdr.table_enc = .ok esz →
      searchLoop m hdr esz target hdr.fde_count 0 hdr.fde_count = .ok low →
      decode_pointer m (hdr.table + low * esz) hdr.endAddr hdr.table_enc hdr.start
        = .ok (x, loc1) →
      decode_pointer m loc1 hdr.endAddr hdr.table_enc hdr.start = .ok (fdeaddr, loc2) →
      fdeDecode fdeaddr = .ok (f, c) →
      (target < f.pc_start ∨ f.pc_end ≤ target) →
      EhFrameHeader.search m fdeDecode hdr target = .error (.dw .FDENotFound))
    ∧ (∀ (m : Mem) fdeDecode scan dwarfStep (s : SectionInfo) (rest : List SectionInfo)
        (pc : Nat) (registers : Registers) (hdr : EhFrameHeader),
      s.contains pc = true →
      EhFrameHeader.decode m s.eh_frame_hdr (wadd s.eh_frame_hdr s.eh_frame_hdr_len)
        = .ok hdr →
      EhFrameHeader.search m fdeDecode hdr pc = .error (.dw .FDENotFound) →
      scan hdr.eh_frame (U64MOD - 1) pc = .error (.dw .FDENotFound) →
      sectionLoop m fdeDecode scan dwarfStep pc registers (s :: rest)
        = .ok (false, registers))
    ∧ (∀ (m : Mem) fdeDecode scan dwarfStep (s : SectionInfo) (rest : List SectionInfo)
        (pc : Nat) (registers : Registers) (hdr : EhFrameHeader) (err : EFail),
      s.contains pc = true →
      EhFrameHeader.decode m s.eh_frame_hdr (wadd s.eh_frame_hdr s.eh_frame_hdr_len)
        = .ok hdr →
      EhFrameHeader.search m fdeDecode hdr pc = .error (.dw .FDENotFound) →
      scan hdr.eh_frame (U64MOD - 1) pc = .error err →
      err ≠ .dw .FDENotFound →
      sectionLoop m fdeDecode scan dwarfStep pc registers (s :: rest) = .error err)
    ∧ (∀ (m : Mem) fdeDecode scan dwarfStep (s : SectionInfo) (rest : List SectionInfo)
        (pc : Nat) (registers : Registers) (hdr : EhFrameHeader) (err : EFail),
      s.contains pc = true →
      EhFrameHeader.decode m s.eh_frame_hdr (wadd s.eh_frame_hdr s.eh_frame_hdr_len)
        = .ok hdr →
      EhFrameHeader.search m fdeDecode hdr pc = .error err →
      err ≠ .dw .FDENotFound →
      sectionLoop m fdeDecode scan dwarfStep pc registers (s :: rest) = .error err)
    ∧ (∀ (m : Mem) fdeDecode scan dwarfStep (s : SectionInfo) (rest : List SectionInfo)
        (pc : Nat) (registers : Registers) (hdr : EhFrameHeader)
        (f : FrameDescriptionEntry) (c : CommonInformationEntry),
      s.contains pc = true →
      EhFrameHeader.decode m s.eh_frame_hdr (wadd s.eh_frame_hdr s.eh_frame_hdr_len)
        = .ok hdr →
      EhFrameHeader.search m fdeDecode hdr pc = .error (.dw .FDENotFound) →
      scan hdr.eh_frame (U64MOD - 1) pc = .ok (f, c) →
      sectionLoop m fdeDecode scan dwarfStep pc registers (s :: rest)
        = Except.map (fun r => (true, r)) (dwarfStep pc f c registers)) := by
  refine ⟨?_, ?_, ?_, ?_, ?_, ?_⟩
  · intro m hdr esz target v hv hs hc hv0
    obtain ⟨r, h1, h2, h3, h4, h5⟩ :=
      searchLoop_spec m hdr esz target hdr.fde_count v hv hs hdr.fde_count 0 hdr.fde_count
        (le_refl _) hc (by omega) hv0 (fun j hj1 hj2 => by omega)
    exact ⟨r, h1, by omega, h4, h5⟩
  · intro m fdeDecode hdr target esz low x loc1 fdeaddr loc2 f c h1 h2 h3 h4 h5 h6
    simp only [EhFrameHeader.search, h1, h2, h3, h4, h5]
    rw [if_pos h6]
  · intro m fdeDecode scan dwarfStep s rest pc registers hdr hcont hdec hsearch hscan
    simp only [sectionLoop, hcont, if_true, sectionStep, hdec, hsearch, hscan]
  · intro m fdeDecode scan dwarfStep s rest pc registers hdr err hcont hdec hsearch hscan hne
    simp only [sectionLoop, hcont, if_true, sectionStep, hdec, hsearch, hscan]
  · intro m fdeDecode scan dwarfStep s rest pc registers hdr err hcont hdec hsearch hne
    simp only [sectionLoop, hcont, if_true, sectionStep, hdec, hsearch]
  · intro m fdeDecode scan dwarfStep s rest pc registers hdr f c hcont hdec hsearch hscan
    simp only [sectionLoop, hcont, if_true, sectionStep, hdec, hsearch, hscan]
    cases dwarfStep pc f c registers <;> rfl

/-- Memory for the C6 witness: a four-entry sorted table at 1000 with
entry values 0, 10, 20, 30 and FDE addresses 201-204 (absptr/udata8
encoding), a well-formed `.eh_frame_hdr` at 2000 (version 1, `eh_frame`
pointer 55, FDE count 4, table at 2020), and a header at 3000 whose
table encoding 5 is invalid. -/
def c6Mem : Mem := fun x =>
  if x = 1000 then 0 else if x = 1016 then 10
  else if x = 1032 then 20 else if x = 1048 then 30
  else if x = 1008 then 201 else if x = 1024 then 202
  else if x = 1040 then 203 else if x = 1056 then 204
  else if x = 2000 then 1 else if x = 2001 then 4
  else if x = 2002 then 4 else if x = 2003 then 4
  else if x = 2004 then 55 else if x = 2012 then 4
  else if x = 3000 then 1 else if x = 3001 then 4
  else if x = 3002 then 4 else if x = 3003 then 5
  else 0

/-- Header over the table at 1000, for the C6 witness. -/
def c6Hdr : EhFrameHeader := ⟨500, 5000, 55, 4, 1000, 4⟩

/-- FDE decoder for the C6 witness: address 203 (entry 2's FDE pointer)
decodes to an FDE covering [20, 24); everything else is not found. -/
def c6FdeDecode : Nat → Except EFail (FrameDescriptionEntry × CommonInformationEntry) :=
  fun a => if a = 203 then .ok (⟨0, 0, 0, 20, 24, 0⟩, c7Cie) else .error (.dw .FDENotFound)

/-- Section whose `.eh_frame_hdr` is the well-formed header at 2000. -/
def c6Sec : SectionInfo := ⟨0, 0, 5000, 2000, 100, 0⟩

/-- Section whose `.eh_frame_hdr` at 3000 has an invalid table encoding. -/
def c6SecBad : SectionInfo := ⟨0, 0, 5000, 3000, 100, 0⟩

/-- Scan oracle failing with a non-`FDENotFound` error, for the C6 witness. -/
def c6ScanErr : Nat → Nat → Nat → Except EFail (FrameDescriptionEntry × CommonInformationEntry) :=
  fun _ _ _ => .error (.dw .CIEZeroLength)

/-- Scan oracle succeeding with an FDE covering [20, 30), for the C6 witness. -/
def c6ScanOk : Nat → Nat → Nat → Except EFail (FrameDescriptionEntry × CommonInformationEntry) :=
  fun _ _ _ => .ok (⟨0, 0, 0, 20, 30, 0⟩, c7Cie)

/-- Witness for C6: every conjunct applied at concrete inputs — the
sorted table with values `10*i` and target 25 (the loop lands on entry
2), the decoded FDE [20, 24) failing the range check for 25, and the
section loop on concrete sections under each of the four
recovery/propagation scenarios. -/
theorem C6_header_search_recovery_witness :
    (∃ low, searchLoop c6Mem c6Hdr 16 25 4 0 4 = Except.ok low ∧
      low < 4 ∧ 10 * low ≤ 25 ∧ ∀ j, j < 4 → 10 * j ≤ 25 → j ≤ low)
    ∧ EhFrameHeader.search c6Mem c6FdeDecode c6Hdr 25 = .error (.dw .FDENotFound)
    ∧ sectionLoop c6Mem c6FdeDecode c5Scan c5D 25 regZero [c6Sec] = .ok (false, regZero)
    ∧ sectionLoop c6Mem c6FdeDecode c6ScanErr c5D 25 regZero [c6Sec]
        = .error (.dw .CIEZeroLength)
    ∧ sectionLoop c6Mem c6FdeDecode c5Scan c5D 25 regZero [c6SecBad]
        = .error (.crash .unreachableEntrySize)
    ∧ sectionLoop c6Mem c6FdeDecode c6ScanOk c5D 25 regZero [c6Sec]
        = Except.map (fun r => (true, r)) (c5D 25 ⟨0, 0, 0, 20, 30, 0⟩ c7Cie regZero) := by
  refine ⟨?_, ?_, ?_, ?_, ?_, ?_⟩
  · exact C6_header_search_recovery.1 c6Mem c6Hdr 16 25 (fun i => 10 * i)
      (by
        intro i hi
        have hi4 : i < 4 := hi
        interval_cases i <;> rfl)
      (by intro i j h1 h2; have h3 : j < 4 := h2; show 10 * i < 10 * j; omega)
      (by decide) (by decide)
  · exact C6_header_search_recovery.2.1 c6Mem c6FdeDecode c6Hdr 25 16 2 20 1040 203 1048
      ⟨0, 0, 0, 20, 24, 0⟩ c7Cie rfl rfl rfl rfl rfl (by decide)
  · exact C6_header_search_recovery.2.2.1 c6Mem c6FdeDecode c5Scan c5D c6Sec [] 25 regZero
      ⟨2000, 2100, 55, 4, 2020, 4⟩ rfl rfl rfl rfl
  · exact C6_header_search_recovery.2.2.2.1 c6Mem c6FdeDecode c6ScanErr c5D c6Sec [] 25
      regZero ⟨2000, 2100, 55, 4, 2020, 4⟩ (.dw .CIEZeroLength) rfl rfl rfl rfl (by decide)
  · exact C6_header_search_recovery.2.2.2.2.1 c6Mem c6FdeDecode c5Scan c5D c6SecBad [] 25
      regZero ⟨3000, 3100, 0, 0, 3020, 5⟩ (.crash .unreachableEntrySize) rfl rfl rfl
      (by decide)
  · exact C6_header_search_recovery.2.2.2.2.2 c6Mem c6FdeDecode c6ScanOk c5D c6Sec [] 25
      regZero ⟨2000, 2100, 55, 4, 2020, 4⟩ ⟨0, 0, 0, 20, 30, 0⟩ c7Cie rfl rfl rfl rfl

end Unwind
